import Mathlib

/-!
# Interius backend pipeline — verification of spec claims

A shallow embedding of the Interius multi-agent backend-code generation
pipeline (Python, `backend/app`), together with theorems settling the
frozen claims about it.

Conventions used throughout:

* Python data classes (pydantic models from `app/agent/artifacts.py`)
  become Lean structures; `str | None` becomes `Option String`,
  Python `int` becomes `Int`.
* Python dictionaries become insertion-ordered association lists with
  Python's update-in-place semantics (`dictInsert` below).
* External effects (LLM calls, the OS bind check, Docker, the database
  session) are passed in explicitly as oracle functions inside an
  environment structure, so each embedded operation is a pure function
  of its inputs and the oracle answers.
* Python strings are modelled as `List Char` where character-level
  scanning is needed, with `String` wrappers at the interface.
-/

namespace Interius

/-! ## Data model (from `app/agent/artifacts.py`) -/

/-- `Issue` from `artifacts.py`: a reviewer-reported problem. -/
structure Issue where
  severity : String
  description : String
  file_path : String
  line_number : Option Int
deriving DecidableEq, Repr

/-- `FilePatchRequest` from `artifacts.py`: a file-scoped regeneration request. -/
structure FilePatchRequest where
  path : String
  reason : String
  instructions : List String
deriving DecidableEq, Repr

/-- `CodeFile` from `artifacts.py`: a relative path plus file content. -/
structure CodeFile where
  path : String
  content : String
deriving DecidableEq, Repr

/-- `GeneratedCode` from `artifacts.py`: the bundle produced by the implementer. -/
structure GeneratedCode where
  files : List CodeFile
  dependencies : List String
deriving DecidableEq, Repr

/-- `TestFailure` from `artifacts.py` (the record itself; the pydantic
`Literal` validation of its `check` field is modelled separately by
`mkTestFailure`). -/
structure TestFailure where
  check : String
  message : String
  file_path : Option String
  line_number : Option Int
  patchable : Bool
deriving DecidableEq, Repr

/-- `TestRunReport` from `artifacts.py`. -/
structure TestRunReport where
  passed : Bool
  checks_run : List String
  failures : List TestFailure
  warnings : List String
  patch_requests : List FilePatchRequest
deriving DecidableEq, Repr

/-- `ReviewReport` from `artifacts.py`. -/
structure ReviewReport where
  issues : List Issue
  suggestions : List String
  security_score : Int
  approved : Bool
  affected_files : List String
  patch_requests : List FilePatchRequest
  final_code : List CodeFile
deriving DecidableEq, Repr

/-- `RepairReport` (imported from `app/agent/artifacts.py` but absent from
the sources; fields reconstructed from its constructions in
`repair_agent.py` and its consumers, plus — modelled from the spec —
the `fully_validated` flag of §3, which `repair_agent.py` never sets, so
it keeps its falsy default). -/
structure RepairReport where
  passed : Bool
  repaired : Bool
  attempts : Nat
  affected_files : List String
  failures : List TestFailure
  warnings : List String
  patch_requests : List FilePatchRequest
  final_code : List CodeFile
  summary : String
  fully_validated : Bool := false
deriving DecidableEq, Repr

/-! ## C1: `ReviewerAgent._merge_deterministic_report`
(`app/agent/reviewer_agent.py`, lines 16–74)

The Python function mutates `review_report` in place; the embedding
returns the updated report.  Python `set`s used only for membership are
modelled as lists with `∈`-checks (insertion order of a set does not
matter because sets are only queried, never iterated). -/

/-- Key of an issue as used by `_merge_deterministic_report`:
`(issue.file_path, issue.description, issue.line_number)`. -/
def issueKey (i : Issue) : String × String × Option Int :=
  (i.file_path, i.description, i.line_number)

/-- Key of a deterministic failure:
`(failure.file_path or "", failure.message, failure.line_number)`.
Python `or ""` maps both `None` and `""` to `""`; `Option.getD ""`
agrees because an empty string is already `""`. -/
def failureKey (f : TestFailure) : String × String × Option Int :=
  (f.file_path.getD "", f.message, f.line_number)

/-- Key of a patch request:
`(request.path, request.reason, tuple(request.instructions or []))`. -/
def patchKey (r : FilePatchRequest) : String × String × List String :=
  (r.path, r.reason, r.instructions)

/-- The `if failure.file_path and failure.file_path not in affected_files`
step of the failure loop (truthiness of an optional string = present and
non-empty). -/
def collectAffected (fp : Option String) (affected : List String) : List String :=
  match fp with
  | some p => if p ≠ "" ∧ p ∉ affected then affected ++ [p] else affected
  | none => affected

/-- The first loop of `_merge_deterministic_report`: walk the failures,
appending a high-severity issue for each unseen key and collecting the
failure's file into `affected_files` when it is non-empty. -/
def mergeFailuresLoop :
    List TestFailure → List Issue → List (String × String × Option Int) →
    List String → List Issue × List String
  | [], issues, _, affected => (issues, affected)
  | f :: rest, issues, keys, affected =>
    let key := failureKey f
    let (issues', keys') :=
      if key ∈ keys then (issues, keys)
      else
        (issues ++ [{ severity := "high", description := f.message,
                      file_path := f.file_path.getD "",
                      line_number := f.line_number : Issue }],
         keys ++ [key])
    mergeFailuresLoop rest issues' keys' (collectAffected f.file_path affected)

/-- The second loop: append unseen patch requests. -/
def mergePatchLoop :
    List FilePatchRequest → List FilePatchRequest →
    List (String × String × List String) → List FilePatchRequest
  | [], acc, _ => acc
  | r :: rest, acc, keys =>
    if patchKey r ∈ keys then mergePatchLoop rest acc keys
    else mergePatchLoop rest (acc ++ [r]) (keys ++ [patchKey r])

/-- The third loop: append unseen warnings to the suggestions. -/
def mergeWarningsLoop :
    List String → List String → List String → List String
  | [], acc, _ => acc
  | w :: rest, acc, seen =>
    if w ∈ seen then mergeWarningsLoop rest acc seen
    else mergeWarningsLoop rest (acc ++ [w]) (seen ++ [w])

/-- `ReviewerAgent._merge_deterministic_report` (reviewer_agent.py:16-74).
Merges the deterministic validator's `TestRunReport` into the reviewer's
`ReviewReport`. -/
def mergeDeterministicReport (rr : ReviewReport) (dr : TestRunReport)
    (suggestion : String) : ReviewReport :=
  if dr.failures = [] then
    if dr.warnings ≠ [] then
      { rr with suggestions :=
          rr.suggestions ++ dr.warnings.filter (· ∉ rr.suggestions) }
    else rr
  else
    let existingIssueKeys := rr.issues.map issueKey
    let existingPatchKeys := rr.patch_requests.map patchKey
    let (issues, affected) :=
      mergeFailuresLoop dr.failures rr.issues existingIssueKeys rr.affected_files
    let patches := mergePatchLoop dr.patch_requests rr.patch_requests existingPatchKeys
    let suggestions₁ := mergeWarningsLoop dr.warnings rr.suggestions rr.suggestions
    let suggestions₂ :=
      if suggestion ∈ suggestions₁ then suggestions₁ else suggestions₁ ++ [suggestion]
    { issues := issues
    , suggestions := suggestions₂
    , security_score := min rr.security_score 6
    , approved := false
    , affected_files := affected
    , patch_requests := patches
    , final_code := rr.final_code }

/-- The failure loop only ever appends to the issue list. -/
theorem mergeFailuresLoop_issues_pref :
    ∀ (fs : List TestFailure) (issues keys aff),
      issues <+: (mergeFailuresLoop fs issues keys aff).1 := by
  intro fs
  induction fs with
  | nil => intro issues keys aff; exact List.prefix_refl _
  | cons f rest ih =>
    intro issues keys aff
    simp only [mergeFailuresLoop]
    by_cases hk : failureKey f ∈ keys
    · simp only [hk, if_pos]
      exact ih issues keys _
    · simp only [hk, if_neg, not_false_iff]
      exact List.IsPrefix.trans (List.prefix_append _ _) (ih _ _ _)

/-- `collectAffected` only ever appends. -/
theorem collectAffected_pref (fp : Option String) (aff : List String) :
    aff <+: collectAffected fp aff := by
  match fp with
  | none => exact List.prefix_refl _
  | some p =>
    simp only [collectAffected]
    by_cases hc : p ≠ "" ∧ p ∉ aff
    · rw [if_pos hc]; exact List.prefix_append _ _
    · rw [if_neg hc]

/-- A present, non-empty file is in the result of `collectAffected`. -/
theorem collectAffected_mem (p : String) (aff : List String) (hp : p ≠ "") :
    p ∈ collectAffected (some p) aff := by
  simp only [collectAffected]
  by_cases hc : p ≠ "" ∧ p ∉ aff
  · rw [if_pos hc]; exact List.mem_append_right _ (List.mem_singleton_self _)
  · rw [if_neg hc]
    rcases not_and_or.mp hc with h | h
    · exact absurd hp h
    · exact not_not.mp h

/-- The failure loop only ever appends to the affected-files list. -/
theorem mergeFailuresLoop_affected_pref :
    ∀ (fs : List TestFailure) (issues keys aff),
      aff <+: (mergeFailuresLoop fs issues keys aff).2 := by
  intro fs
  induction fs with
  | nil => intro issues keys aff; exact List.prefix_refl _
  | cons f rest ih =>
    intro issues keys aff
    simp only [mergeFailuresLoop]
    exact List.IsPrefix.trans (collectAffected_pref _ _) (ih _ _ _)

/-- Every key tracked by the failure loop is realized by an issue in its
output, provided that held of the input. -/
theorem mergeFailuresLoop_keys_covered :
    ∀ (fs : List TestFailure) (issues keys aff),
      (∀ k ∈ keys, ∃ i ∈ issues, issueKey i = k) →
      ∀ k ∈ keys, ∃ i ∈ (mergeFailuresLoop fs issues keys aff).1, issueKey i = k := by
  intro fs
  induction fs with
  | nil => intro issues keys aff hinv; exact hinv
  | cons f rest ih =>
    intro issues keys aff hinv k hk
    simp only [mergeFailuresLoop]
    by_cases hmem : failureKey f ∈ keys
    · simp only [hmem, if_pos]
      exact ih issues keys _ hinv k hk
    · simp only [hmem, if_neg, not_false_iff]
      refine ih _ _ _ ?_ k (List.mem_append_left _ hk)
      intro k' hk'
      rcases List.mem_append.mp hk' with h | h
      · obtain ⟨i, hi, hik⟩ := hinv k' h
        exact ⟨i, List.mem_append_left _ hi, hik⟩
      · refine ⟨_, List.mem_append_right _ (List.mem_singleton_self _), ?_⟩
        simp only [List.mem_singleton] at h
        subst h
        rfl

/-- Every failure fed to the loop is realized as an issue of the output. -/
theorem mergeFailuresLoop_covers :
    ∀ (fs : List TestFailure) (issues keys aff),
      (∀ k ∈ keys, ∃ i ∈ issues, issueKey i = k) →
      ∀ f ∈ fs, ∃ i ∈ (mergeFailuresLoop fs issues keys aff).1, issueKey i = failureKey f := by
  intro fs
  induction fs with
  | nil => intro _ _ _ _ f hf; exact absurd hf (List.not_mem_nil f)
  | cons g rest ih =>
    intro issues keys aff hinv f hf
    rcases List.mem_cons.mp hf with rfl | hf'
    · -- the head failure: after its step, its key is tracked, hence covered.
      simp only [mergeFailuresLoop]
      by_cases hmem : failureKey f ∈ keys
      · simp only [hmem, if_pos]
        exact mergeFailuresLoop_keys_covered rest issues keys _ hinv _ hmem
      · simp only [hmem, if_neg, not_false_iff]
        refine mergeFailuresLoop_keys_covered rest _ _ _ ?_ _
          (List.mem_append_right _ (List.mem_singleton_self _))
        intro k' hk'
        rcases List.mem_append.mp hk' with h | h
        · obtain ⟨i, hi, hik⟩ := hinv k' h
          exact ⟨i, List.mem_append_left _ hi, hik⟩
        · refine ⟨_, List.mem_append_right _ (List.mem_singleton_self _), ?_⟩
          simp only [List.mem_singleton] at h
          subst h
          rfl
    · -- a tail failure: step preserves the invariant, then apply ih.
      simp only [mergeFailuresLoop]
      by_cases hmem : failureKey g ∈ keys
      · simp only [hmem, if_pos]
        exact ih issues keys _ hinv f hf'
      · simp only [hmem, if_neg, not_false_iff]
        refine ih _ _ _ ?_ f hf'
        intro k' hk'
        rcases List.mem_append.mp hk' with h | h
        · obtain ⟨i, hi, hik⟩ := hinv k' h
          exact ⟨i, List.mem_append_left _ hi, hik⟩
        · refine ⟨_, List.mem_append_right _ (List.mem_singleton_self _), ?_⟩
          simp only [List.mem_singleton] at h
          subst h
          rfl

/-- Every non-empty failure file ends up in the loop's affected list. -/
theorem mergeFailuresLoop_affected_mem :
    ∀ (fs : List TestFailure) (issues keys aff),
      ∀ f ∈ fs, ∀ p, f.file_path = some p → p ≠ "" →
        p ∈ (mergeFailuresLoop fs issues keys aff).2 := by
  intro fs
  induction fs with
  | nil => intro _ _ _ f hf; exact absurd hf (List.not_mem_nil f)
  | cons g rest ih =>
    intro issues keys aff f hf p hp hpne
    rcases List.mem_cons.mp hf with rfl | hf'
    · simp only [mergeFailuresLoop, hp]
      exact (mergeFailuresLoop_affected_pref rest _ _ _).subset
        (collectAffected_mem p aff hpne)
    · simp only [mergeFailuresLoop]
      exact ih _ _ _ f hf' p hp hpne

/-- C1. For every reviewer report and every validator report with at least
one failure, merging the validator report into the reviewer report yields
a report with `approved = false` and `security_score ≤ 6`; every
validator-reported failure appears as an issue of the merged report and
every non-empty failure file appears among its `affected_files`. -/
theorem C1_merge_forces_rejection (rr : ReviewReport) (dr : TestRunReport)
    (sugg : String) (h : dr.failures ≠ []) :
    (mergeDeterministicReport rr dr sugg).approved = false ∧
    (mergeDeterministicReport rr dr sugg).security_score ≤ 6 ∧
    (∀ f ∈ dr.failures, ∃ i ∈ (mergeDeterministicReport rr dr sugg).issues,
        i.description = f.message ∧ i.file_path = f.file_path.getD "" ∧
        i.line_number = f.line_number) ∧
    (∀ f ∈ dr.failures, ∀ p, f.file_path = some p → p ≠ "" →
        p ∈ (mergeDeterministicReport rr dr sugg).affected_files) := by
  have hinv : ∀ k ∈ rr.issues.map issueKey, ∃ i ∈ rr.issues, issueKey i = k := by
    intro k hk
    obtain ⟨i, hi, rfl⟩ := List.mem_map.mp hk
    exact ⟨i, hi, rfl⟩
  refine ⟨?_, ?_, ?_, ?_⟩ <;>
    simp only [mergeDeterministicReport, h, if_neg, not_false_iff]
  · exact min_le_right _ _
  · intro f hf
    obtain ⟨i, hi, hik⟩ :=
      mergeFailuresLoop_covers dr.failures rr.issues (rr.issues.map issueKey)
        rr.affected_files hinv f hf
    refine ⟨i, hi, ?_, ?_, ?_⟩ <;>
      · have := congrArg Prod.fst hik
        have h2 := congrArg (fun q => q.2.1) hik
        have h3 := congrArg (fun q => q.2.2) hik
        simp only [issueKey, failureKey] at this h2 h3
        first
        | exact h2
        | exact this
        | exact h3
  · intro f hf p hp hpne
    exact mergeFailuresLoop_affected_mem dr.failures rr.issues
      (rr.issues.map issueKey) rr.affected_files f hf p hp hpne

/-- A concrete reviewer report used as C1 witness input. -/
def c1ReviewW : ReviewReport :=
  { issues := []
  , suggestions := ["keep modules small"]
  , security_score := 9
  , approved := true
  , affected_files := []
  , patch_requests := []
  , final_code := [] }

/-- A concrete validator report with one failure, used as C1 witness input. -/
def c1ValidatorW : TestRunReport :=
  { passed := false
  , checks_run := ["import_smoke"]
  , failures := [{ check := "import_smoke"
                 , message := "app.routes imports missing symbol list_todos"
                 , file_path := some "app/routes.py"
                 , line_number := some 3
                 , patchable := true }]
  , warnings := []
  , patch_requests := [] }

/-- Witness for C1: the theorem applied at a concrete reviewer report and
a concrete one-failure validator report. -/
theorem C1_merge_forces_rejection_witness :
    (mergeDeterministicReport c1ReviewW c1ValidatorW "fix").approved = false ∧
    (mergeDeterministicReport c1ReviewW c1ValidatorW "fix").security_score ≤ 6 ∧
    (∀ f ∈ c1ValidatorW.failures,
        ∃ i ∈ (mergeDeterministicReport c1ReviewW c1ValidatorW "fix").issues,
          i.description = f.message ∧ i.file_path = f.file_path.getD "" ∧
          i.line_number = f.line_number) ∧
    (∀ f ∈ c1ValidatorW.failures, ∀ p, f.file_path = some p → p ≠ "" →
        p ∈ (mergeDeterministicReport c1ReviewW c1ValidatorW "fix").affected_files) :=
  C1_merge_forces_rejection c1ReviewW c1ValidatorW "fix" (by decide)

/-! ## Python string primitives

Helpers shared by the embeddings.  Python's `str.strip` family strips
Unicode whitespace; the generated-code strings handled by this backend
are ASCII, so the ASCII whitespace set is used. -/

/-- ASCII subset of Python's `str.isspace` characters. -/
def isPyWs (c : Char) : Bool :=
  c = ' ' || c = '\t' || c = '\n' || c = '\r' || c = '\x0b' || c = '\x0c'

/-- Drop leading characters satisfying `p`. -/
def stripLeading (p : Char → Bool) (l : List Char) : List Char :=
  l.dropWhile p

/-- Drop trailing characters satisfying `p`. -/
def stripTrailing (p : Char → Bool) (l : List Char) : List Char :=
  (l.reverse.dropWhile p).reverse

/-- Python `str.strip()`. -/
def pyStrip (s : String) : String :=
  ⟨stripTrailing isPyWs (stripLeading isPyWs s.data)⟩

/-- Python `str.lstrip("/")` (strip a single given character from the left). -/
def pyLStripChar (c : Char) (s : String) : String :=
  ⟨s.data.dropWhile (· = c)⟩

/-- Python `str.rstrip("/")` (strip a single given character from the right). -/
def pyRStripChar (c : Char) (s : String) : String :=
  ⟨stripTrailing (· = c) s.data⟩

/-- Truthiness of a Python `str | None`: present and non-empty. -/
def pyTruthyOpt (o : Option String) : Bool :=
  match o with
  | some s => s ≠ ""
  | none => false

/-- Truthiness of a Python `int | None`: present and non-zero. -/
def pyTruthyOptInt (o : Option Int) : Bool :=
  match o with
  | some n => n ≠ 0
  | none => false

/-! ## C2: `RepairAgent.run` (`app/agent/repair_agent.py`, lines 188–301)

The repair loop is embedded as a pure function of its inputs and an
oracle environment answering the external calls it makes
(`TestRunner.run`, `_is_sandbox_live`, `ImplementerAgent.patch_files`),
each indexed by how many calls of that kind have happened so far. -/

/-- `SystemArchitecture` from `artifacts.py`. -/
structure SystemArchitecture where
  design_document : String
  mermaid_diagram : String
  components : List String
  data_model_summary : List String
  endpoint_summary : List String
deriving DecidableEq, Repr

/-- Modelled from the spec: `RepairContext` is imported from
`app/agent/artifacts.py` but that class is absent from the sources;
its fields are reconstructed from its uses in `repair_agent.py`
(`input_data.code`, `.review_report`, `.architecture`, `.project_id`)
and its construction in `orchestrator.py`. -/
structure RepairContext where
  architecture : SystemArchitecture
  code : GeneratedCode
  review_report : Option ReviewReport
  project_id : Option String

/-- `dict.setdefault(key, []).append(value)` on an insertion-ordered
Python dictionary of lists. -/
def issueMapAdd (m : List (String × List String)) (k v : String) :
    List (String × List String) :=
  if m.any (·.1 = k) then
    m.map (fun e => if e.1 = k then (e.1, e.2 ++ [v]) else e)
  else m ++ [(k, [v])]

/-- `RepairAgent._review_issue_map` (repair_agent.py:28-39). -/
def reviewIssueMap (ctx : RepairContext) : List (String × List String) :=
  match ctx.review_report with
  | none => []
  | some rr =>
    rr.issues.foldl
      (fun m issue =>
        let path := pyStrip issue.file_path
        if path = "" then m
        else issueMapAdd m path ("[" ++ issue.severity ++ "] " ++ issue.description))
      []

/-- `f" (line {n})" if failure.line_number else ""` (0 and `None` are falsy). -/
def lineSuffix (ln : Option Int) : String :=
  if pyTruthyOptInt ln then " (line " ++ toString (ln.getD 0) ++ ")" else ""

/-- `RepairAgent._select_fallback_path` (repair_agent.py:41-50). -/
def selectFallbackPath (codeFiles : List CodeFile) (failure : TestFailure) :
    Option String :=
  if pyTruthyOpt failure.file_path then failure.file_path
  else
    let existing := codeFiles.map (·.path)
    let candidates := ["app/routes.py", "app/main.py", "app/schemas.py",
                       "app/models.py", "app/service.py", "app/services.py"]
    match candidates.find? (· ∈ existing) with
    | some c => some c
    | none => existing.head?

/-- `RepairAgent._fallback_patch_requests` (repair_agent.py:52-68). -/
def fallbackPatchRequests (codeFiles : List CodeFile) (failures : List TestFailure) :
    List FilePatchRequest :=
  let byPath := failures.foldl
    (fun m f =>
      match selectFallbackPath codeFiles f with
      | none => m
      | some path =>
        issueMapAdd m path
          ("Fix " ++ f.check ++ " failure" ++ lineSuffix f.line_number ++ ": " ++ f.message))
    []
  byPath.map (fun e =>
    { path := e.1
    , reason := "Runtime repair loop found startup or endpoint smoke failures"
    , instructions := e.2 })

/-- Deduplication pass of `RepairAgent._merge_patch_requests`. -/
def dedupPatchRequests :
    List FilePatchRequest → List FilePatchRequest →
    List (String × String × List String) → List FilePatchRequest
  | [], acc, _ => acc
  | r :: rest, acc, seen =>
    if patchKey r ∈ seen then dedupPatchRequests rest acc seen
    else dedupPatchRequests rest (acc ++ [r]) (seen ++ [patchKey r])

/-- `RepairAgent._merge_patch_requests` (repair_agent.py:70-85). -/
def mergePatchRequests (collections : List (List FilePatchRequest)) :
    List FilePatchRequest :=
  dedupPatchRequests collections.flatten [] []

/-- `RepairAgent.build_repair_requests` (repair_agent.py:130-141). -/
def buildRepairRequests (ctx : RepairContext) (currentCode : GeneratedCode)
    (testReport : TestRunReport) :
    List FilePatchRequest × List (String × List String) :=
  (mergePatchRequests
      [testReport.patch_requests,
       fallbackPatchRequests currentCode.files testReport.failures],
   reviewIssueMap ctx)

/-- `RepairAgent._build_escalation_patch_requests` (repair_agent.py:143-186). -/
def buildEscalationPatchRequests (codeFiles : List CodeFile)
    (failures : List TestFailure) (affectedFiles : List String) :
    List FilePatchRequest :=
  let targets₀ := affectedFiles.filter (fun p => pyStrip p ≠ "")
  let targets₁ :=
    if targets₀ = [] then
      failures.foldl
        (fun acc f =>
          match selectFallbackPath codeFiles f with
          | some sel => if sel ≠ "" ∧ sel ∉ acc then acc ++ [sel] else acc
          | none => acc)
        []
    else targets₀
  let targets₂ :=
    if targets₁ = [] then
      ((codeFiles.map (·.path)).filter (fun p => pyStrip p ≠ "")).take 3
    else targets₁
  if targets₂ = [] then []
  else
    let instructions :=
      ["Resolve the remaining sandbox startup, container-log, and endpoint smoke failures together. Do not preserve the broken implementation if a more direct rewrite is needed."]
      ++ failures.map (fun f =>
          "Remaining " ++ f.check ++ " failure" ++ lineSuffix f.line_number ++ ": " ++ f.message)
    targets₂.map (fun path =>
      { path := path
      , reason := "Escalated runtime repair after sandbox-backed checks still failed"
      , instructions := instructions })

/-- The `TestFailure` appended by `_ensure_live_sandbox_after_success`. -/
def lifecycleFailure : TestFailure :=
  { check := "import_smoke"
  , message := "Sandbox validation passed but the container was not still running afterward. Restart and fix the runtime lifecycle before release."
  , file_path := some "app/main.py"
  , line_number := some 1
  , patchable := true }

/-- `RepairAgent._ensure_live_sandbox_after_success` (repair_agent.py:101-128);
`active` is the oracle answer of `_sandbox_is_active`. -/
def ensureLiveSandboxAfterSuccess (active : Bool) (report : TestRunReport)
    (projectId : Option String) : TestRunReport :=
  if !report.passed || !pyTruthyOpt projectId then report
  else if active then report
  else
    { passed := false
    , checks_run := report.checks_run
    , failures := report.failures ++ [lifecycleFailure]
    , warnings := report.warnings
    , patch_requests := report.patch_requests }

/-- Oracle environment for one `RepairAgent.run` invocation: answers of
the k-th evaluation (`TestRunner.run`), the k-th liveness probe after an
evaluation, and the k-th `ImplementerAgent.patch_files` call. -/
structure RepairEnv where
  evalReport : Nat → TestRunReport
  sandboxActive : Nat → Bool
  patchResult : Nat → GeneratedCode

/-- The k-th evaluation step of the loop:
`_ensure_live_sandbox_after_success(await self.evaluate(...), ...)`. -/
def evalStep (env : RepairEnv) (ctx : RepairContext) (k : Nat) : TestRunReport :=
  ensureLiveSandboxAfterSuccess (env.sandboxActive k) (env.evalReport k) ctx.project_id

/-- Intermediate result of one of the two `while` loops of
`RepairAgent.run`: either an early `return` with a finished report
(plus the number of `patch_files` calls made so far), or the state that
flows onward (code, latest report, attempts, repaired flag, affected
files, next evaluation index, patch calls made). -/
inductive LoopResult where
  | done (r : RepairReport) (patchCalls : Nat)
  | cont (code : GeneratedCode) (report : TestRunReport) (attempts : Nat)
      (repaired : Bool) (affected : List String) (evalIdx : Nat) (patchCalls : Nat)

/-- `for request in patch_requests: if request.path and request.path not in
affected_files: affected_files.append(request.path)`. -/
def appendAffected (affected : List String) (reqs : List FilePatchRequest) :
    List String :=
  reqs.foldl
    (fun a r => if r.path ≠ "" ∧ r.path ∉ a then a ++ [r.path] else a)
    affected

/-- The targeted-patch `while repair_attempts < self.max_iterations` loop
(repair_agent.py:211-244), with `fuel = max_iterations - repair_attempts`. -/
def targetedLoop (env : RepairEnv) (ctx : RepairContext) :
    Nat → GeneratedCode → TestRunReport → Nat → Bool → List String → Nat → Nat →
    LoopResult
  | 0, code, report, attempts, repaired, affected, evalIdx, calls =>
    .cont code report attempts repaired affected evalIdx calls
  | fuel + 1, code, report, attempts, repaired, affected, evalIdx, calls =>
    let (patchReqs, _issueMap) := buildRepairRequests ctx code report
    if patchReqs = [] then .cont code report attempts repaired affected evalIdx calls
    else
      let attempts' := attempts + 1
      let affected' := appendAffected affected patchReqs
      let code' := env.patchResult calls
      let report' := evalStep env ctx evalIdx
      if report'.passed then
        .done
          { passed := true, repaired := true, attempts := attempts'
          , affected_files := affected', failures := []
          , warnings := report'.warnings, patch_requests := []
          , final_code := code'.files
          , summary := "Repair loop fixed runtime issues in " ++
              toString attempts' ++ " pass(es)." }
          (calls + 1)
      else
        targetedLoop env ctx fuel code' report' attempts' true affected' (evalIdx + 1)
          (calls + 1)

/-- The escalation `while escalation_attempts < self.escalation_iterations`
loop (repair_agent.py:246-285), with `fuel = escalation_iterations -
escalation_attempts`. -/
def escalationLoop (env : RepairEnv) (ctx : RepairContext) :
    Nat → GeneratedCode → TestRunReport → Nat → Bool → List String → Nat → Nat →
    LoopResult
  | 0, code, report, attempts, repaired, affected, evalIdx, calls =>
    .cont code report attempts repaired affected evalIdx calls
  | fuel + 1, code, report, attempts, repaired, affected, evalIdx, calls =>
    let escReqs := buildEscalationPatchRequests code.files report.failures affected
    if escReqs = [] then .cont code report attempts repaired affected evalIdx calls
    else
      let attempts' := attempts + 1
      let affected' := appendAffected affected escReqs
      let code' := env.patchResult calls
      let report' := evalStep env ctx evalIdx
      if report'.passed then
        .done
          { passed := true, repaired := true, attempts := attempts'
          , affected_files := affected', failures := []
          , warnings := report'.warnings, patch_requests := []
          , final_code := code'.files
          , summary := "Repair loop fixed runtime issues in " ++
              toString attempts' ++ " pass(es), including escalated sandbox fixes." }
          (calls + 1)
      else
        escalationLoop env ctx fuel code' report' attempts' true affected' (evalIdx + 1)
          (calls + 1)

/-- The final `RepairReport` when both loops exhaust (repair_agent.py:287-301). -/
def exhaustedReport (code : GeneratedCode) (report : TestRunReport)
    (attempts : Nat) (repaired : Bool) (affected : List String) : RepairReport :=
  { passed := false, repaired := repaired, attempts := attempts
  , affected_files := affected, failures := report.failures
  , warnings := report.warnings, patch_requests := report.patch_requests
  , final_code := code.files
  , summary :=
      if repaired then
        "Repair loop exhausted after " ++ toString attempts ++
          " pass(es) and runtime issues remain."
      else "Runtime issues remain and no repairable files could be identified." }

/-- `RepairAgent.run` (repair_agent.py:188-301): returns the report and the
total number of `ImplementerAgent.patch_files` invocations performed. -/
def repairRun (env : RepairEnv) (ctx : RepairContext) (maxIt escIt : Nat) :
    RepairReport × Nat :=
  let report₀ := evalStep env ctx 0
  if report₀.passed then
    ({ passed := true, repaired := false, attempts := 0, affected_files := []
     , failures := [], warnings := report₀.warnings, patch_requests := []
     , final_code := ctx.code.files
     , summary := "Runtime repair checks passed without additional repairs." }, 0)
  else
    match targetedLoop env ctx maxIt ctx.code report₀ 0 false [] 1 0 with
    | .done r calls => (r, calls)
    | .cont code report attempts repaired affected evalIdx calls =>
      match escalationLoop env ctx escIt code report attempts repaired affected
          evalIdx calls with
      | .done r calls' => (r, calls')
      | .cont code' report' attempts' repaired' affected' _ calls' =>
        (exhaustedReport code' report' attempts' repaired' affected', calls')

/-- Patch-call count of a loop result. -/
def LoopResult.calls : LoopResult → Nat
  | .done _ c => c
  | .cont _ _ _ _ _ _ c => c

/-- The targeted loop makes at most `fuel` additional patch calls. -/
theorem targetedLoop_calls_le (env : RepairEnv) (ctx : RepairContext) :
    ∀ (fuel : Nat) code report attempts repaired affected evalIdx calls,
      (targetedLoop env ctx fuel code report attempts repaired affected
          evalIdx calls).calls ≤ calls + fuel := by
  intro fuel
  induction fuel with
  | zero =>
    intro code report attempts repaired affected evalIdx calls
    simp [targetedLoop, LoopResult.calls]
  | succ n ih =>
    intro code report attempts repaired affected evalIdx calls
    simp only [targetedLoop]
    by_cases hreq : (buildRepairRequests ctx code report).1 = []
    · simp only [hreq, if_pos, LoopResult.calls]
      omega
    · rw [if_neg hreq]
      by_cases hp : (evalStep env ctx evalIdx).passed
      · rw [if_pos hp]
        simp only [LoopResult.calls]
        omega
      · rw [if_neg hp]
        calc (targetedLoop env ctx n _ _ _ _ _ _ (calls + 1)).calls
            ≤ (calls + 1) + n := ih _ _ _ _ _ _ _
          _ ≤ calls + (n + 1) := by omega

/-- The escalation loop makes at most `fuel` additional patch calls. -/
theorem escalationLoop_calls_le (env : RepairEnv) (ctx : RepairContext) :
    ∀ (fuel : Nat) code report attempts repaired affected evalIdx calls,
      (escalationLoop env ctx fuel code report attempts repaired affected
          evalIdx calls).calls ≤ calls + fuel := by
  intro fuel
  induction fuel with
  | zero =>
    intro code report attempts repaired affected evalIdx calls
    simp [escalationLoop, LoopResult.calls]
  | succ n ih =>
    intro code report attempts repaired affected evalIdx calls
    simp only [escalationLoop]
    by_cases hreq :
        buildEscalationPatchRequests code.files report.failures affected = []
    · simp only [hreq, if_pos, LoopResult.calls]
      omega
    · rw [if_neg hreq]
      by_cases hp : (evalStep env ctx evalIdx).passed
      · rw [if_pos hp]
        simp only [LoopResult.calls]
        omega
      · rw [if_neg hp]
        calc (escalationLoop env ctx n _ _ _ _ _ _ (calls + 1)).calls
            ≤ (calls + 1) + n := ih _ _ _ _ _ _ _
          _ ≤ calls + (n + 1) := by omega

/-- C2. For every oracle environment and repair context (hence for every
initial bundle and every sequence of evaluation outcomes), one run of the
repair loop performs at most `max_iterations + escalation_iterations`
implementer `patch_files` invocations; the loop is a total function, so
it terminates.  With the defaults `3 + 2` this bounds the count by `5`. -/
theorem C2_repair_invocations_bounded (env : RepairEnv) (ctx : RepairContext)
    (maxIt escIt : Nat) :
    (repairRun env ctx maxIt escIt).2 ≤ maxIt + escIt := by
  simp only [repairRun]
  by_cases h0 : (evalStep env ctx 0).passed
  · rw [if_pos h0]
    exact Nat.zero_le _
  · rw [if_neg h0]
    have ht := targetedLoop_calls_le env ctx maxIt ctx.code (evalStep env ctx 0)
      0 false [] 1 0
    match htl : targetedLoop env ctx maxIt ctx.code (evalStep env ctx 0) 0 false [] 1 0 with
    | .done r calls =>
      rw [htl] at ht
      simp only [LoopResult.calls] at ht
      simp only [htl]
      omega
    | .cont code report attempts repaired affected evalIdx calls =>
      rw [htl] at ht
      simp only [LoopResult.calls] at ht
      have he := escalationLoop_calls_le env ctx escIt code report attempts
        repaired affected evalIdx calls
      simp only [htl]
      match hel : escalationLoop env ctx escIt code report attempts repaired
          affected evalIdx calls with
      | .done r calls' =>
        rw [hel] at he
        simp only [LoopResult.calls] at he
        simp only [hel]
        omega
      | .cont code' report' attempts' repaired' affected' evalIdx' calls' =>
        rw [hel] at he
        simp only [LoopResult.calls] at he
        simp only [hel]
        omega

/-! ## C6: `ImplementerAgent._sanitize_relative_path`
(`app/agent/implementer_agent.py`, lines 49–58)

All scanners are structurally recursive so concrete inputs evaluate
inside the kernel. -/

/-- `path.replace("\\", "/")`. -/
def mapBackslash (l : List Char) : List Char :=
  l.map (fun c => if c = '\\' then '/' else c)

/-- Worker for `re.sub(r"/{2,}", "/", s)`: the flag records whether the
previous character was a slash (in which case further slashes of the
same run are dropped). -/
def collapseAux : Bool → List Char → List Char
  | _, [] => []
  | prevSlash, c :: rest =>
    if c = '/' then
      (if prevSlash then collapseAux true rest else '/' :: collapseAux true rest)
    else c :: collapseAux false rest

/-- `re.sub(r"/{2,}", "/", s)`: collapse every run of two or more slashes
into one (a lone slash is emitted unchanged). -/
def collapseSlashes (l : List Char) : List Char :=
  collapseAux false l

/-- `s.replace("../", "")`: left-to-right, non-overlapping removal
(`str.replace` scans the original string and never rescans junctions). -/
def removeDotDotSlash : List Char → List Char
  | [] => []
  | [c] => [c]
  | [c, d] => [c, d]
  | c :: d :: e :: rest =>
    if c = '.' ∧ d = '.' ∧ e = '/' then removeDotDotSlash rest
    else c :: removeDotDotSlash (d :: e :: rest)

/-- `s.replace("..\\", "")`, same scheme with a backslash. -/
def removeDotDotBackslash : List Char → List Char
  | [] => []
  | [c] => [c]
  | [c, d] => [c, d]
  | c :: d :: e :: rest =>
    if c = '.' ∧ d = '.' ∧ e = '\\' then removeDotDotBackslash rest
    else c :: removeDotDotBackslash (d :: e :: rest)

/-- `ImplementerAgent._sanitize_relative_path` (implementer_agent.py:49-58). -/
def sanitizeRelativePath (path : String) : String :=
  let l₀ := mapBackslash path.data
  let l₁ := stripTrailing isPyWs (stripLeading isPyWs l₀)
  let l₂ := l₁.dropWhile (· = '/')
  let l₃ := collapseSlashes l₂
  let l₄ := removeDotDotBackslash (removeDotDotSlash l₃)
  if l₄ = [] then ""
  else if l₄.getLast? = some '/' then ⟨stripTrailing (· = '/') l₄⟩
  else ⟨l₄⟩

/-- Accumulating splitter for the `/`-separated segments of a path. -/
def segmentsAux : List Char → List Char → List String
  | [], cur => [⟨cur.reverse⟩]
  | '/' :: rest, cur => (⟨cur.reverse⟩ : String) :: segmentsAux rest []
  | c :: rest, cur => segmentsAux rest (c :: cur)

/-- The `/`-separated segments of a path string. -/
def pathSegments (s : String) : List String :=
  segmentsAux s.data []

/-- C6 counterexample: sanitizing `".."` keeps a `".."` segment, and the
sanitizer is not idempotent — the single `replace("../", "")` pass over
`"a..././b"` produces `"a../b"` (the removal junction recreates `"../"`),
which a second sanitization reduces further.  So the claim fails as
stated. -/
theorem C6_sanitize_counterexample :
    ".." ∈ pathSegments (sanitizeRelativePath "..") ∧
    sanitizeRelativePath (sanitizeRelativePath "a..././b") ≠
      sanitizeRelativePath "a..././b" := by
  decide

/-- Whether the character list contains two adjacent slashes. -/
def hasDoubleSlash : List Char → Bool
  | [] => false
  | c :: rest => decide (c = '/' ∧ rest.head? = some '/') || hasDoubleSlash rest

theorem hasDoubleSlash_cons (a : Char) (l : List Char) :
    hasDoubleSlash (a :: l) =
      (decide (a = '/' ∧ l.head? = some '/') || hasDoubleSlash l) := rfl

/-- Splitting `hasDoubleSlash (a :: l) = false` into its two parts. -/
theorem hasDoubleSlash_cons_false {a : Char} {l : List Char}
    (h : hasDoubleSlash (a :: l) = false) :
    ¬(a = '/' ∧ l.head? = some '/') ∧ hasDoubleSlash l = false := by
  rw [hasDoubleSlash_cons, Bool.or_eq_false_iff] at h
  exact ⟨by simpa using h.1, h.2⟩

/-- After a slash was just emitted, the collapser never starts with
another slash. -/
theorem collapseAux_true_head :
    ∀ l : List Char, (collapseAux true l).head? ≠ some '/' := by
  intro l
  induction l with
  | nil => simp [collapseAux]
  | cons c rest ih =>
    by_cases hc : c = '/'
    · rw [show collapseAux true (c :: rest) = collapseAux true rest by
        rw [collapseAux, if_pos hc, if_pos rfl]]
      exact ih
    · rw [show collapseAux true (c :: rest) = c :: collapseAux false rest by
        rw [collapseAux, if_neg hc]]
      simpa using hc

/-- The collapser preserves the first character. -/
theorem collapseSlashes_head? (l : List Char) :
    (collapseSlashes l).head? = l.head? := by
  match l with
  | [] => rfl
  | c :: rest =>
    by_cases hc : c = '/'
    · rw [collapseSlashes, show collapseAux false (c :: rest)
          = '/' :: collapseAux true rest by
        rw [collapseAux, if_pos hc, if_neg (by simp)]]
      simp [hc]
    · rw [collapseSlashes, show collapseAux false (c :: rest)
          = c :: collapseAux false rest by
        rw [collapseAux, if_neg hc]]
      rfl

/-- The collapser's output never contains two adjacent slashes. -/
theorem collapseAux_noDouble :
    ∀ (l : List Char) (b : Bool), hasDoubleSlash (collapseAux b l) = false := by
  intro l
  induction l with
  | nil => intro b; rfl
  | cons c rest ih =>
    intro b
    by_cases hc : c = '/'
    · subst hc
      match b with
      | true =>
        rw [show collapseAux true ('/' :: rest) = collapseAux true rest by
          rw [collapseAux, if_pos rfl, if_pos rfl]]
        exact ih true
      | false =>
        rw [show collapseAux false ('/' :: rest) = '/' :: collapseAux true rest by
          rw [collapseAux, if_pos rfl, if_neg (by simp)]]
        rw [hasDoubleSlash_cons, Bool.or_eq_false_iff]
        refine ⟨?_, ih true⟩
        simp only [decide_eq_false_iff_not]
        rintro ⟨-, hh⟩
        exact collapseAux_true_head rest hh
    · rw [show collapseAux b (c :: rest) = c :: collapseAux false rest by
        rw [collapseAux, if_neg hc]]
      rw [hasDoubleSlash_cons, Bool.or_eq_false_iff]
      refine ⟨?_, ih false⟩
      simp only [decide_eq_false_iff_not]
      rintro ⟨hcc, -⟩
      exact hc hcc

/-- Characters of the collapser's output other than `'/'` come from the
input. -/
theorem collapseAux_mem {c : Char} (hc : c ≠ '/') :
    ∀ (l : List Char) (b : Bool), c ∈ collapseAux b l → c ∈ l := by
  intro l
  induction l with
  | nil => intro b h; exact absurd h (List.not_mem_nil c)
  | cons d rest ih =>
    intro b h
    by_cases hd : d = '/'
    · subst hd
      match b with
      | true =>
        rw [show collapseAux true ('/' :: rest) = collapseAux true rest by
          rw [collapseAux, if_pos rfl, if_pos rfl]] at h
        exact List.mem_cons_of_mem _ (ih true h)
      | false =>
        rw [show collapseAux false ('/' :: rest) = '/' :: collapseAux true rest by
          rw [collapseAux, if_pos rfl, if_neg (by simp)]] at h
        rcases List.mem_cons.mp h with h' | h'
        · exact absurd h' hc
        · exact List.mem_cons_of_mem _ (ih true h')
    · rw [show collapseAux b (d :: rest) = d :: collapseAux false rest by
        rw [collapseAux, if_neg hd]] at h
      rcases List.mem_cons.mp h with h' | h'
      · exact h' ▸ List.mem_cons_self _ _
      · exact List.mem_cons_of_mem _ (ih false h')

theorem removeDotDotSlash_mem {c : Char} :
    ∀ l : List Char, c ∈ removeDotDotSlash l → c ∈ l := by
  intro l
  induction l using removeDotDotSlash.induct with
  | case1 => intro h; exact absurd h (List.not_mem_nil c)
  | case2 d => intro h; exact h
  | case3 d e => intro h; exact h
  | case4 d e f rest h ih =>
    rw [removeDotDotSlash, if_pos h]
    intro hm
    exact List.mem_cons_of_mem _ (List.mem_cons_of_mem _ (List.mem_cons_of_mem _ (ih hm)))
  | case5 d e f rest h ih =>
    rw [removeDotDotSlash, if_neg h]
    intro hm
    rcases List.mem_cons.mp hm with h' | h'
    · exact h' ▸ List.mem_cons_self _ _
    · exact List.mem_cons_of_mem _ (ih h')

theorem removeDotDotSlash_head :
    ∀ l : List Char, hasDoubleSlash l = false →
      (removeDotDotSlash l).head? = some '/' → l.head? = some '/' := by
  intro l
  induction l using removeDotDotSlash.induct with
  | case1 => intro _ h; simp [removeDotDotSlash] at h
  | case2 d => intro _ h; exact h
  | case3 d e => intro _ h; exact h
  | case4 d e f rest h ih =>
    obtain ⟨hd, he, hf⟩ := h
    intro hds hhead
    rw [removeDotDotSlash, if_pos ⟨hd, he, hf⟩] at hhead
    obtain ⟨-, hds₁⟩ := hasDoubleSlash_cons_false hds
    obtain ⟨-, hds₂⟩ := hasDoubleSlash_cons_false hds₁
    obtain ⟨hno, hds₃⟩ := hasDoubleSlash_cons_false hds₂
    exact absurd ⟨hf, ih hds₃ hhead⟩ hno
  | case5 d e f rest h ih =>
    intro hds hhead
    rw [removeDotDotSlash, if_neg h] at hhead
    simpa using hhead

theorem removeDotDotSlash_noDouble :
    ∀ l : List Char, hasDoubleSlash l = false →
      hasDoubleSlash (removeDotDotSlash l) = false := by
  intro l
  induction l using removeDotDotSlash.induct with
  | case1 => intro _; rfl
  | case2 d => intro h; exact h
  | case3 d e => intro h; exact h
  | case4 d e f rest h ih =>
    obtain ⟨hd, he, hf⟩ := h
    intro hds
    rw [removeDotDotSlash, if_pos ⟨hd, he, hf⟩]
    obtain ⟨-, hds₁⟩ := hasDoubleSlash_cons_false hds
    obtain ⟨-, hds₂⟩ := hasDoubleSlash_cons_false hds₁
    obtain ⟨-, hds₃⟩ := hasDoubleSlash_cons_false hds₂
    exact ih hds₃
  | case5 d e f rest h ih =>
    intro hds
    rw [removeDotDotSlash, if_neg h]
    obtain ⟨hno, hds'⟩ := hasDoubleSlash_cons_false hds
    rw [hasDoubleSlash_cons, Bool.or_eq_false_iff]
    constructor
    · simp only [decide_eq_false_iff_not]
      rintro ⟨rfl, hh⟩
      exact hno ⟨rfl, removeDotDotSlash_head _ hds' hh⟩
    · exact ih hds'

/-- On a backslash-free list the `"..\\"` removal is the identity. -/
theorem removeDotDotBackslash_id :
    ∀ l : List Char, '\\' ∉ l → removeDotDotBackslash l = l := by
  intro l
  induction l using removeDotDotBackslash.induct with
  | case1 => intro _; rfl
  | case2 d => intro _; rfl
  | case3 d e => intro _; rfl
  | case4 d e f rest h ih =>
    obtain ⟨hd, he, hf⟩ := h
    intro hl
    exact absurd (hf ▸ List.mem_cons_of_mem _ (List.mem_cons_of_mem _
      (List.mem_cons_self _ _))) hl
  | case5 d e f rest h ih =>
    intro hl
    rw [removeDotDotBackslash, if_neg h]
    rw [ih (fun hm => hl (List.mem_cons_of_mem _ hm))]

/-- A prefix of a double-slash-free list is double-slash-free. -/
theorem hasDoubleSlash_pref :
    ∀ (p l : List Char), p <+: l → hasDoubleSlash l = false →
      hasDoubleSlash p = false := by
  intro p
  induction p with
  | nil => intro _ _ _; rfl
  | cons a p' ih =>
    intro l hp hl
    obtain ⟨t, rfl⟩ := hp
    obtain ⟨hno, hl'⟩ := hasDoubleSlash_cons_false hl
    rw [hasDoubleSlash_cons, Bool.or_eq_false_iff]
    constructor
    · simp only [decide_eq_false_iff_not]
      rintro ⟨rfl, hh⟩
      refine hno ⟨rfl, ?_⟩
      cases p' with
      | nil => simp at hh
      | cons c p'' => simpa using hh
    · exact ih _ ⟨t, rfl⟩ hl'

/-- `stripTrailing` keeps a prefix of the list. -/
theorem stripTrailing_pref (p : Char → Bool) (l : List Char) :
    stripTrailing p l <+: l := by
  obtain ⟨t, ht⟩ := List.dropWhile_suffix (l := l.reverse) (p := p)
  refine ⟨t.reverse, ?_⟩
  have := congrArg List.reverse ht
  rw [List.reverse_append, List.reverse_reverse] at this
  rw [stripTrailing]
  exact this

/-- The head of a nonempty prefix agrees with the head of the list. -/
theorem IsPrefix.head?_eq {p l : List Char} {a : Char} (h : p <+: l)
    (hp : p.head? = some a) : l.head? = some a := by
  obtain ⟨t, rfl⟩ := h
  cases p with
  | nil => simp at hp
  | cons c p' => simpa using hp

/-- The head of `dropWhile p` does not satisfy `p`. -/
theorem head?_dropWhile {p : Char → Bool} :
    ∀ {l : List Char} {a : Char}, (l.dropWhile p).head? = some a → p a = false := by
  intro l
  induction l with
  | nil => intro a h; simp at h
  | cons c rest ih =>
    intro a h
    by_cases hc : p c
    · rw [List.dropWhile_cons_of_pos hc] at h
      exact ih h
    · rw [List.dropWhile_cons_of_neg hc] at h
      simp only [List.head?_cons, Option.some.injEq] at h
      subst h
      exact Bool.not_eq_true _ ▸ (by simpa using hc)

/-- The last character of `stripTrailing p l` does not satisfy `p`. -/
theorem getLast?_stripTrailing {p : Char → Bool} {l : List Char} {a : Char}
    (h : (stripTrailing p l).getLast? = some a) : p a = false := by
  rw [stripTrailing, List.getLast?_reverse] at h
  exact head?_dropWhile h

/-- C6 amended.  The path sanitizer converts backslashes to forward
slashes, drops leading slashes, collapses repeated slashes, strips any
trailing slashes, and removes `"../"` substrings in a single left-to-right
pass: for every input, the result contains no backslash, does not start
with a slash, contains no two adjacent slashes, and does not end with a
slash.  (The single-pass removal neither makes the sanitizer idempotent
nor eliminates all `".."` segments — see the counterexample.) -/
theorem C6_sanitize_amended (s : String) :
    '\\' ∉ (sanitizeRelativePath s).data ∧
    (sanitizeRelativePath s).data.head? ≠ some '/' ∧
    hasDoubleSlash (sanitizeRelativePath s).data = false ∧
    (sanitizeRelativePath s).data.getLast? ≠ some '/' := by
  rw [sanitizeRelativePath]
  -- names for the intermediate stages
  set l₀ := mapBackslash s.data with hl₀
  set l₁ := stripTrailing isPyWs (stripLeading isPyWs l₀) with hl₁
  set l₂ := l₁.dropWhile (· = '/') with hl₂
  set l₃ := collapseSlashes l₂ with hl₃
  -- facts feeding into the last two stages
  have hbs₀ : '\\' ∉ l₀ := by
    rw [hl₀, mapBackslash]
    intro hm
    obtain ⟨c, -, hc⟩ := List.mem_map.mp hm
    by_cases h : c = '\\' <;> simp [h] at hc
  have hbs₃ : '\\' ∉ l₃ := by
    intro hm
    apply hbs₀
    have h₂ : '\\' ∈ l₂ := collapseAux_mem (by decide) l₂ false hm
    have h₁ : '\\' ∈ l₁ := (List.dropWhile_sublist _).subset h₂
    have h₀' : '\\' ∈ stripLeading isPyWs l₀ :=
      (stripTrailing_pref _ _).subset h₁
    exact (List.dropWhile_sublist _).subset h₀'
  have hhead₃ : l₃.head? ≠ some '/' := by
    rw [hl₃, collapseSlashes_head?]
    intro hh
    have := head?_dropWhile hh
    simp at this
  have hds₃ : hasDoubleSlash l₃ = false := collapseAux_noDouble l₂ false
  -- the combined removal stage
  have hrm : removeDotDotBackslash (removeDotDotSlash l₃) = removeDotDotSlash l₃ :=
    removeDotDotBackslash_id _ (fun hm => hbs₃ (removeDotDotSlash_mem _ hm))
  rw [hrm]
  set l₄ := removeDotDotSlash l₃ with hl₄
  have hbs₄ : '\\' ∉ l₄ := fun hm => hbs₃ (removeDotDotSlash_mem _ hm)
  have hhead₄ : l₄.head? ≠ some '/' :=
    fun hh => hhead₃ (removeDotDotSlash_head _ hds₃ hh)
  have hds₄ : hasDoubleSlash l₄ = false := removeDotDotSlash_noDouble _ hds₃
  by_cases hnil : l₄ = []
  · rw [if_pos hnil]
    refine ⟨by simp, by simp, rfl, by simp⟩
  · rw [if_neg hnil]
    by_cases hlast : l₄.getLast? = some '/'
    · rw [if_pos hlast]
      have hpre := stripTrailing_pref (· = '/') l₄
      refine ⟨fun hm => hbs₄ (hpre.subset hm), ?_, ?_, ?_⟩
      · intro hh
        exact hhead₄ (IsPrefix.head?_eq hpre hh)
      · exact hasDoubleSlash_pref _ _ hpre hds₄
      · intro hh
        have := getLast?_stripTrailing hh
        simp at this
    · rw [if_neg hlast]
      exact ⟨hbs₄, hhead₄, hds₄, hlast⟩

/-! ## C7: `TestFailure` construction (`app/agent/artifacts.py`, lines
113–118) and the endpoint-smoke path of `TestRunner._live_sandbox_check`
(`app/agent/test_runner.py`, lines 124–197)

`TestFailure.check` is annotated `Literal["syntax", "import_smoke"]`
(artifacts.py:114); pydantic validates the annotation when the model is
constructed and raises a `ValidationError` otherwise.  The embedding
makes that validation explicit as an `Except`-returning constructor. -/

/-- The admissible values of `TestFailure.check` per its pydantic
`Literal` annotation in `artifacts.py` line 114. -/
def testFailureCheckLiterals : List String := ["syntax", "import_smoke"]

/-- Pydantic construction `TestFailure(check=..., ...)`: validates the
`check` field against the `Literal` annotation; an inadmissible value
raises a `ValidationError`. -/
def mkTestFailure (check message : String) (file_path : Option String)
    (line_number : Option Int) (patchable : Bool) : Except String TestFailure :=
  if check ∈ testFailureCheckLiterals then
    .ok { check := check, message := message, file_path := file_path
        , line_number := line_number, patchable := patchable }
  else
    .error "ValidationError: check must be \x27syntax\x27 or \x27import_smoke\x27"

/-- The `TestFailure(check="endpoint_smoke", ...)` constructed by
`_live_sandbox_check` when an endpoint probe observes an HTTP 5xx
(test_runner.py:179-183). -/
def endpointSmoke500Failure (method path : String) : Except String TestFailure :=
  mkTestFailure "endpoint_smoke"
    (method ++ " " ++ path ++ " returned 500 Internal Server Error in the sandbox.")
    none none true

/-- C7 code bug.  The `Literal` annotation of `TestFailure.check` admits
only `"syntax"` and `"import_smoke"`, so the construction performed by the
live-sandbox endpoint probe on an HTTP 5xx (`check="endpoint_smoke"`,
test_runner.py:179) raises a pydantic `ValidationError` instead of
producing a patchable failure — contradicting the claim, the module's own
use of `"endpoint_smoke"` throughout `test_runner.py`, and the repository
tests that construct such failures (`test_repair_agent.py:191`,
`test_orchestrator_release_gate.py:56`). -/
theorem C7_endpoint_smoke_literal_rejected :
    (endpointSmoke500Failure "GET" "/items").isOk = false ∧
    (mkTestFailure "syntax" "bad syntax" none none true).isOk = true ∧
    (mkTestFailure "import_smoke" "bad import" none none true).isOk = true := by
  decide

/-! ## C9: `_allocate_sandbox_port` and `_is_host_port_available`
(`app/api/routes/sandbox.py`, lines 230–256)

The filesystem and the OS are oracles: `existingPort` is the `"port"`
entry of the project's own `.sandbox-runtime.json` when the file exists,
parses, and the entry is an `int` (all other cases collapse to `none`,
matching the `isinstance(existing_port, int)` guard); `reservedPorts`
are the integer `"port"` entries of all projects' runtime files
(membership-only use, so a list models the Python set); `bindOK` is the
OS answer to the `bind(("127.0.0.1", port))` probe. -/

structure PortEnv where
  existingPort : Option Int
  reservedPorts : List Int
  bindOK : Int → Bool

/-- The `for port in range(SANDBOX_PORT_RANGE_START, SANDBOX_PORT_RANGE_END + 1)`
scan of `_allocate_sandbox_port`, with `fuel` remaining ports to try. -/
def scanPorts (env : PortEnv) : Nat → Int → Option Int
  | 0, _ => none
  | fuel + 1, p =>
    if p ∈ env.reservedPorts then scanPorts env fuel (p + 1)
    else if env.bindOK p then some p
    else scanPorts env fuel (p + 1)

/-- `_allocate_sandbox_port` (sandbox.py:240-256): reuse the project's
recorded port if the OS can still bind it, else scan `[lo, hi]` skipping
reserved ports and ports the OS cannot bind; exhaustion raises
`HTTPException(500)`. -/
def allocateSandboxPort (env : PortEnv) (lo hi : Int) : Except String Int :=
  let scanned :=
    match scanPorts env (hi + 1 - lo).toNat lo with
    | some p => Except.ok p
    | none => Except.error "No free sandbox ports are available."
  match env.existingPort with
  | some p => if env.bindOK p then .ok p else scanned
  | none => scanned

/-- A concrete allocator state: the project's runtime metadata records
port 1 and the OS can bind anything. -/
def c9CounterEnv : PortEnv :=
  { existingPort := some 1, reservedPorts := [], bindOK := fun _ => true }

/-- C9 counterexample: on the reuse path the allocator returns whatever
integer the project's runtime metadata recorded — here port 1, far below
the configured range `[9100, 9199]` — so `P_lo ≤ P` fails as claimed. -/
theorem C9_allocator_counterexample :
    allocateSandboxPort c9CounterEnv 9100 9199 = .ok 1 ∧ ¬((9100 : Int) ≤ 1) := by
  constructor
  · rfl
  · decide

/-- What a successful scan guarantees. -/
theorem scanPorts_ok (env : PortEnv) :
    ∀ (fuel : Nat) (start p : Int), scanPorts env fuel start = some p →
      env.bindOK p = true ∧ start ≤ p ∧ p < start + fuel ∧ p ∉ env.reservedPorts := by
  intro fuel
  induction fuel with
  | zero => intro start p h; simp [scanPorts] at h
  | succ n ih =>
    intro start p h
    rw [scanPorts] at h
    by_cases hres : start ∈ env.reservedPorts
    · rw [if_pos hres] at h
      obtain ⟨h1, h2, h3, h4⟩ := ih (start + 1) p h
      exact ⟨h1, by omega, by omega, h4⟩
    · rw [if_neg hres] at h
      by_cases hbind : env.bindOK start
      · rw [if_pos hbind] at h
        obtain rfl := Option.some.inj h
        exact ⟨hbind, le_refl _, by omega, hres⟩
      · rw [if_neg hbind] at h
        obtain ⟨h1, h2, h3, h4⟩ := ih (start + 1) p h
        exact ⟨h1, by omega, by omega, h4⟩

/-- C9 amended.  Whenever the allocator returns a port `P`, the OS-level
bind check on `P` succeeded at allocation time; on the scan path `P`
additionally lies in `[P_lo, P_hi]` and avoids other projects' reserved
ports, while on the reuse path `P` is exactly the port recorded in the
project's own runtime metadata (bind-checked but not range-checked). -/
theorem C9_allocator_amended (env : PortEnv) (lo hi p : Int)
    (h : allocateSandboxPort env lo hi = .ok p) :
    env.bindOK p = true ∧
    (env.existingPort = some p ∨
      (lo ≤ p ∧ p ≤ hi ∧ p ∉ env.reservedPorts)) := by
  have hscan : ∀ q, (match scanPorts env (hi + 1 - lo).toNat lo with
      | some r => Except.ok r
      | none => Except.error "No free sandbox ports are available.") =
        Except.ok q →
      env.bindOK q = true ∧ lo ≤ q ∧ q ≤ hi ∧ q ∉ env.reservedPorts := by
    intro q hq
    match hs : scanPorts env (hi + 1 - lo).toNat lo with
    | some r =>
      rw [hs] at hq
      obtain rfl := Except.ok.inj hq
      obtain ⟨h1, h2, h3, h4⟩ := scanPorts_ok env _ _ _ hs
      refine ⟨h1, h2, ?_, h4⟩
      have hfuel : (hi + 1 - lo).toNat ≠ 0 := by
        intro h0
        rw [h0] at hs
        simp [scanPorts] at hs
      have hpos : 0 < hi + 1 - lo := by
        by_contra hneg
        exact hfuel (Int.toNat_of_nonpos (by omega))
      have hcast : ((hi + 1 - lo).toNat : Int) = hi + 1 - lo :=
        Int.toNat_of_nonneg (by omega)
      omega
    | none => rw [hs] at hq; exact absurd hq (by simp)
  rw [allocateSandboxPort] at h
  match hex : env.existingPort with
  | some q =>
    simp only [hex] at h
    by_cases hbind : env.bindOK q = true
    · rw [if_pos hbind] at h
      obtain rfl := Except.ok.inj h
      exact ⟨hbind, Or.inl rfl⟩
    · rw [if_neg hbind] at h
      obtain ⟨h1, h2, h3, h4⟩ := hscan p h
      exact ⟨h1, Or.inr ⟨h2, h3, h4⟩⟩
  | none =>
    simp only [hex] at h
    obtain ⟨h1, h2, h3, h4⟩ := hscan p h
    exact ⟨h1, Or.inr ⟨h2, h3, h4⟩⟩

/-- A concrete allocator state exercising the scan path: no recorded
port, 9100 reserved by another project, and the OS can bind only 9101. -/
def c9ScanEnv : PortEnv :=
  { existingPort := none
  , reservedPorts := [9100]
  , bindOK := fun p => decide (p = 9101) }

/-- Witness for the amended C9 theorem at a concrete scan-path state. -/
theorem C9_allocator_amended_witness :
    c9ScanEnv.bindOK 9101 = true ∧
    (c9ScanEnv.existingPort = some 9101 ∨
      ((9100 : Int) ≤ 9101 ∧ (9101 : Int) ≤ 9199 ∧
        (9101 : Int) ∉ c9ScanEnv.reservedPorts)) :=
  C9_allocator_amended c9ScanEnv 9100 9199 9101 (by rfl)

/-! ## C8: `ImplementerAgent.patch_files`
(`app/agent/implementer_agent.py`, lines 204–269)

Python dictionaries are modelled as insertion-ordered association lists:
updating an existing key rewrites it in place, a new key is appended. -/

/-- Python `dict` assignment `m[k] = v`. -/
def dictInsert {α : Type} (m : List (String × α)) (k : String) (v : α) :
    List (String × α) :=
  if m.any (·.1 = k) then m.map (fun e => if e.1 = k then (k, v) else e)
  else m ++ [(k, v)]

/-- Python `m.get(k)` / `m[k]`. -/
def dictGet? {α : Type} (m : List (String × α)) (k : String) : Option α :=
  (m.find? (·.1 = k)).map (·.2)

/-- Python `k in m`. -/
def dictMem {α : Type} (m : List (String × α)) (k : String) : Bool :=
  m.any (·.1 = k)

/-- `current_map = {f.path: f for f in (current_code.files or []) if f.path}`
(implementer_agent.py:218). -/
def currentMapOf (files : List CodeFile) : List (String × CodeFile) :=
  (files.filter (fun f => f.path ≠ "")).foldl
    (fun m f => dictInsert m f.path f) []

/-- The `patch_by_path` loop (implementer_agent.py:233-242): sanitize the
requested path, drop requests whose path is empty or not in the current
bundle, normalize reason and instructions, and keep the last request per
path. -/
def patchByPathOf (currentMap : List (String × CodeFile))
    (patch_requests : List FilePatchRequest) :
    List (String × FilePatchRequest) :=
  patch_requests.foldl
    (fun m req =>
      let path := sanitizeRelativePath req.path
      if path = "" ∨ dictMem currentMap path = false then m
      else
        dictInsert m path
          { path := path
          , reason :=
              (if pyStrip req.reason = "" then "Reviewer requested fixes"
               else pyStrip req.reason)
          , instructions :=
              (req.instructions.filter (fun i => pyStrip i ≠ "")).map pyStrip })
    []

/-- The paths targeted by a valid patch request of a `patch_files` call. -/
def targetedPaths (cc : GeneratedCode) (reqs : List FilePatchRequest) :
    List String :=
  (patchByPathOf (currentMapOf cc.files) reqs).map (·.1)

/-- `ImplementerAgent.patch_files` (implementer_agent.py:204-269).
`llmPatch path request` is the oracle answer of `_patch_file_content`
for the regenerated file (the architecture package, plan and per-file
issue lists only influence the prompt, i.e. the oracle's answer). -/
def patchFiles (llmPatch : String → FilePatchRequest → String)
    (current_code : GeneratedCode) (patch_requests : List FilePatchRequest) :
    GeneratedCode :=
  let currentMap := currentMapOf current_code.files
  if currentMap = [] then current_code
  else
    let patchByPath := patchByPathOf currentMap patch_requests
    if patchByPath = [] then current_code
    else
      let updatedMap := patchByPath.foldl
        (fun um e =>
          dictInsert um e.1 { path := e.1, content := llmPatch e.1 e.2 })
        currentMap
      let ordered₀ := (current_code.files.map (·.path)).filter
        (fun p => dictMem updatedMap p)
      let ordered := ordered₀ ++ ((updatedMap.map (·.1)).filter (· ∉ ordered₀))
      { files := ordered.filterMap (fun p => dictGet? updatedMap p)
      , dependencies := current_code.dependencies }

/-- A two-file bundle whose first file has an empty path. -/
def c8Bundle : GeneratedCode :=
  { files := [{ path := "", content := "orphan" },
              { path := "app/a.py", content := "print(1)" }]
  , dependencies := ["fastapi"] }

/-- A patch request targeting only `app/a.py`. -/
def c8Req : FilePatchRequest :=
  { path := "app/a.py", reason := "fix", instructions := ["rewrite"] }

/-- A constant implementer answer. -/
def c8Llm : String → FilePatchRequest → String := fun _ _ => "print(2)"

/-- C8 counterexample: the empty-path file of the current bundle is not
targeted by the (single) valid patch request, yet it does not appear in
the result at all — `patch_files` silently drops files whose path is
falsy once any valid patch request exists. -/
theorem C8_patch_counterexample :
    ({ path := "", content := "orphan" } : CodeFile) ∈ c8Bundle.files ∧
    targetedPaths c8Bundle [c8Req] = ["app/a.py"] ∧
    ({ path := "", content := "orphan" } : CodeFile) ∉
      (patchFiles c8Llm c8Bundle [c8Req]).files := by
  decide

/-! Dictionary lemmas for the C8 frame proof. -/

theorem dictMem_keys {α : Type} (m : List (String × α)) (k : String) :
    dictMem m k = (m.map (·.1)).any (· = k) := by
  induction m with
  | nil => rfl
  | cons e rest ih =>
    show (decide (e.1 = k) || rest.any fun x => decide (x.1 = k))
      = (decide (e.1 = k) || (rest.map (·.1)).any fun x => decide (x = k))
    rw [show (rest.any fun x => decide (x.1 = k)) = dictMem rest k from rfl, ih]

theorem dictInsert_keys_present {α : Type} (m : List (String × α)) (k : String)
    (v : α) (h : m.any (·.1 = k) = true) :
    (dictInsert m k v).map (·.1) = m.map (·.1) := by
  rw [dictInsert, if_pos h, List.map_map]
  refine List.map_congr_left ?_
  intro e _
  by_cases he : e.1 = k
  · simp [he]
  · simp [he]

theorem find?_map_replace_ne {α : Type} (k p : String) (v : α) (hne : p ≠ k) :
    ∀ m : List (String × α),
      (m.map (fun e => if e.1 = k then (k, v) else e)).find? (·.1 = p) =
        m.find? (·.1 = p) := by
  intro m
  induction m with
  | nil => rfl
  | cons e rest ih =>
    simp only [List.map_cons]
    by_cases he : e.1 = k
    · rw [if_pos he]
      rw [List.find?_cons_of_neg _
          (by simp only [decide_eq_true_eq]; exact fun h => hne h.symm),
        List.find?_cons_of_neg _
          (by simp only [decide_eq_true_eq]; rw [he]; exact fun h => hne h.symm)]
      exact ih
    · rw [if_neg he]
      by_cases hep : e.1 = p
      · rw [List.find?_cons_of_pos _ (by simpa using hep),
          List.find?_cons_of_pos _ (by simpa using hep)]
      · rw [List.find?_cons_of_neg _ (by simpa using hep),
          List.find?_cons_of_neg _ (by simpa using hep)]
        exact ih

theorem find?_append_single_ne {α : Type} (k p : String) (v : α) (hne : p ≠ k) :
    ∀ m : List (String × α),
      (m ++ [(k, v)]).find? (·.1 = p) = m.find? (·.1 = p) := by
  intro m
  induction m with
  | nil =>
    simp only [List.nil_append]
    rw [List.find?_cons_of_neg _
      (by simp only [decide_eq_true_eq]; exact fun h => hne h.symm)]
  | cons e rest ih =>
    simp only [List.cons_append]
    by_cases hep : e.1 = p
    · rw [List.find?_cons_of_pos _ (by simpa using hep),
        List.find?_cons_of_pos _ (by simpa using hep)]
    · rw [List.find?_cons_of_neg _ (by simpa using hep),
        List.find?_cons_of_neg _ (by simpa using hep)]
      exact ih

theorem dictGet?_insert_ne {α : Type} (m : List (String × α)) (k p : String)
    (v : α) (hne : p ≠ k) :
    dictGet? (dictInsert m k v) p = dictGet? m p := by
  rw [dictInsert]
  by_cases h : m.any (·.1 = k) = true
  · rw [if_pos h, dictGet?, dictGet?, find?_map_replace_ne k p v hne]
  · rw [if_neg h, dictGet?, dictGet?, find?_append_single_ne k p v hne]

theorem dictInsert_mem {α : Type} {m : List (String × α)} {k : String} {v : α}
    {e : String × α} (h : e ∈ dictInsert m k v) : e ∈ m ∨ e = (k, v) := by
  rw [dictInsert] at h
  by_cases hc : m.any (·.1 = k) = true
  · rw [if_pos hc] at h
    obtain ⟨a, ha, hae⟩ := List.mem_map.mp h
    by_cases hak : a.1 = k
    · rw [if_pos hak] at hae
      exact Or.inr hae.symm
    · rw [if_neg hak] at hae
      exact Or.inl (hae ▸ ha)
  · rw [if_neg hc] at h
    rcases List.mem_append.mp h with h' | h'
    · exact Or.inl h'
    · exact Or.inr (List.mem_singleton.mp h')

theorem dictMem_get {α : Type} (m : List (String × α)) (p : String)
    (h : dictMem m p = true) : ∃ v, dictGet? m p = some v := by
  rw [dictMem, List.any_eq_true] at h
  obtain ⟨e, he, hep⟩ := h
  have : (m.find? (·.1 = p)).isSome := List.find?_isSome.mpr ⟨e, he, hep⟩
  obtain ⟨a, ha⟩ := Option.isSome_iff_exists.mp this
  exact ⟨a.2, by rw [dictGet?, ha]; rfl⟩

theorem dictGet?_mem {α : Type} {m : List (String × α)} {p : String} {v : α}
    (h : dictGet? m p = some v) : ∃ e ∈ m, e.1 = p ∧ e.2 = v := by
  rw [dictGet?] at h
  match hf : m.find? (·.1 = p) with
  | none => rw [hf] at h; simp at h
  | some a =>
    rw [hf] at h
    refine ⟨a, List.mem_of_find?_eq_some hf, ?_, by simpa using h⟩
    have := List.find?_some hf
    simpa using this

/-- Building `current_map` over fresh keys just pairs each file with its
path. -/
theorem foldInsert_fresh :
    ∀ (files : List CodeFile) (acc : List (String × CodeFile)),
      (files.map (·.path)).Nodup →
      (∀ f ∈ files, acc.any (·.1 = f.path) = false) →
      files.foldl (fun m f => dictInsert m f.path f) acc =
        acc ++ files.map (fun f => (f.path, f)) := by
  intro files
  induction files with
  | nil => intro acc _ _; simp
  | cons f fs ih =>
    intro acc hnd hfresh
    rw [List.map_cons] at hnd
    obtain ⟨hnotmem, hndtail⟩ := List.nodup_cons.mp hnd
    have hnotin : acc.any (·.1 = f.path) = false :=
      hfresh f (List.mem_cons_self _ _)
    simp only [List.foldl_cons]
    rw [show dictInsert acc f.path f = acc ++ [(f.path, f)] by
      rw [dictInsert, if_neg (by simp [hnotin])]]
    rw [ih (acc ++ [(f.path, f)]) hndtail ?_]
    · simp
    · intro g hg
      rw [List.any_append, Bool.or_eq_false_iff]
      constructor
      · exact hfresh g (List.mem_cons_of_mem _ hg)
      · have hne : g.path ≠ f.path := by
          intro hEq
          exact hnotmem (hEq ▸ List.mem_map_of_mem (·.path) hg)
        simp only [List.any_cons, List.any_nil, Bool.or_false,
          decide_eq_false_iff_not]
        exact fun h => hne h.symm

/-- Looking up a file's path in the path-to-file pairing finds the file. -/
theorem get_pairs :
    ∀ (files : List CodeFile) (f : CodeFile),
      (files.map (·.path)).Nodup → f ∈ files →
      dictGet? (files.map (fun g => (g.path, g))) f.path = some f := by
  intro files
  induction files with
  | nil => intro f _ h; exact absurd h (List.not_mem_nil f)
  | cons g fs ih =>
    intro f hnd hf
    rw [List.map_cons] at hnd
    obtain ⟨hnotmem, hndtail⟩ := List.nodup_cons.mp hnd
    rcases List.mem_cons.mp hf with rfl | hf'
    · simp [dictGet?, List.find?_cons]
    · have hne : g.path ≠ f.path := by
        intro hEq
        exact hnotmem (hEq ▸ List.mem_map_of_mem (·.path) hf')
      have h2 : decide (g.path = f.path) = false := by
        simp only [decide_eq_false_iff_not]
        exact hne
      simp only [List.map_cons, dictGet?, List.find?_cons, h2]
      exact ih f hndtail hf'

/-- Every entry of `patch_by_path` has a key present in `current_map`. -/
theorem patchByPath_mem_current (cm : List (String × CodeFile)) :
    ∀ (reqs : List FilePatchRequest) (acc : List (String × FilePatchRequest)),
      (∀ e ∈ acc, dictMem cm e.1 = true) →
      ∀ e ∈ reqs.foldl
        (fun m req =>
          let path := sanitizeRelativePath req.path
          if path = "" ∨ dictMem cm path = false then m
          else
            dictInsert m path
              { path := path
              , reason :=
                  (if pyStrip req.reason = "" then "Reviewer requested fixes"
                   else pyStrip req.reason)
              , instructions :=
                  (req.instructions.filter (fun i => pyStrip i ≠ "")).map pyStrip })
        acc,
        dictMem cm e.1 = true := by
  intro reqs
  induction reqs with
  | nil => intro acc hacc e he; exact hacc e he
  | cons req rest ih =>
    intro acc hacc e he
    simp only [List.foldl_cons] at he
    by_cases hskip : sanitizeRelativePath req.path = "" ∨
        dictMem cm (sanitizeRelativePath req.path) = false
    · rw [if_pos hskip] at he
      exact ih acc hacc e he
    · rw [if_neg hskip] at he
      refine ih _ ?_ e he
      intro e' he'
      rcases dictInsert_mem he' with h' | h'
      · exact hacc e' h'
      · rw [h']
        push_neg at hskip
        exact Bool.not_eq_false _ ▸ hskip.2

/-- `patchByPathOf` distributes its fold description. -/
theorem patchByPathOf_mem_current (cm : List (String × CodeFile))
    (reqs : List FilePatchRequest) :
    ∀ e ∈ patchByPathOf cm reqs, dictMem cm e.1 = true := by
  intro e he
  exact patchByPath_mem_current cm reqs [] (by intro e' h; exact absurd h (List.not_mem_nil e')) e he

/-- The update fold keeps the key sequence when every inserted key is
already present. -/
theorem foldUpdate_keys (llm : String → FilePatchRequest → String) :
    ∀ (pbp : List (String × FilePatchRequest)) (um : List (String × CodeFile)),
      (∀ e ∈ pbp, dictMem um e.1 = true) →
      (pbp.foldl (fun um e =>
          dictInsert um e.1 { path := e.1, content := llm e.1 e.2 }) um).map (·.1)
        = um.map (·.1) := by
  intro pbp
  induction pbp with
  | nil => intro um _; rfl
  | cons e rest ih =>
    intro um hmem
    simp only [List.foldl_cons]
    have he : dictMem um e.1 = true := hmem e (List.mem_cons_self _ _)
    have hkeys := dictInsert_keys_present um e.1
      ({ path := e.1, content := llm e.1 e.2 } : CodeFile) he
    rw [ih _ ?_, hkeys]
    intro e' he'
    rw [dictMem_keys, hkeys, ← dictMem_keys]
    exact hmem e' (List.mem_cons_of_mem _ he')

/-- The update fold leaves untargeted keys untouched. -/
theorem foldUpdate_get_ne (llm : String → FilePatchRequest → String) :
    ∀ (pbp : List (String × FilePatchRequest)) (um : List (String × CodeFile))
      (p : String), (∀ e ∈ pbp, e.1 ≠ p) →
      dictGet? (pbp.foldl (fun um e =>
          dictInsert um e.1 { path := e.1, content := llm e.1 e.2 }) um) p
        = dictGet? um p := by
  intro pbp
  induction pbp with
  | nil => intro um p _; rfl
  | cons e rest ih =>
    intro um p hne
    simp only [List.foldl_cons]
    rw [ih _ p (fun e' he' => hne e' (List.mem_cons_of_mem _ he')),
      dictGet?_insert_ne _ _ _ _
        (fun h => hne e (List.mem_cons_self _ _) h.symm)]

/-- Values of the update fold carry their key as `path` when the initial
map does. -/
theorem foldUpdate_value_inv (llm : String → FilePatchRequest → String) :
    ∀ (pbp : List (String × FilePatchRequest)) (um : List (String × CodeFile)),
      (∀ e ∈ um, (e.2 : CodeFile).path = e.1) →
      ∀ e ∈ pbp.foldl (fun um e =>
          dictInsert um e.1 { path := e.1, content := llm e.1 e.2 }) um,
        (e.2 : CodeFile).path = e.1 := by
  intro pbp
  induction pbp with
  | nil => intro um hinv e he; exact hinv e he
  | cons q rest ih =>
    intro um hinv e he
    simp only [List.foldl_cons] at he
    refine ih _ ?_ e he
    intro e' he'
    rcases dictInsert_mem he' with h' | h'
    · exact hinv e' h'
    · rw [h']

/-- Reading back a list of present keys yields files with those paths. -/
theorem filterMap_get_paths (m : List (String × CodeFile)) :
    ∀ ps : List String,
      (∀ p ∈ ps, dictMem m p = true) →
      (∀ e ∈ m, (e.2 : CodeFile).path = e.1) →
      (ps.filterMap (fun p => dictGet? m p)).map (·.path) = ps := by
  intro ps
  induction ps with
  | nil => intro _ _; rfl
  | cons p rest ih =>
    intro hmem hinv
    obtain ⟨v, hv⟩ := dictMem_get m p (hmem p (List.mem_cons_self _ _))
    have hvp : v.path = p := by
      obtain ⟨e, he, hk, hval⟩ := dictGet?_mem hv
      rw [← hval, hinv e he, hk]
    simp only [List.filterMap_cons, hv, List.map_cons, hvp]
    rw [ih (fun q hq => hmem q (List.mem_cons_of_mem _ hq)) hinv]

/-- C8 amended.  For bundles whose file paths are non-empty and pairwise
distinct (the `CodeFile` invariant of the data model), every
`patch_files` call returns a bundle with exactly the original path
sequence — files not targeted by a valid patch request appear unchanged
in their original relative position — and the returned dependency list
equals the input's (so it never shrinks). -/
theorem C8_patch_frame (llm : String → FilePatchRequest → String)
    (cc : GeneratedCode) (reqs : List FilePatchRequest)
    (hne : ∀ f ∈ cc.files, f.path ≠ "")
    (hnd : (cc.files.map (·.path)).Nodup) :
    ((patchFiles llm cc reqs).files.map (·.path) = cc.files.map (·.path)) ∧
    (∀ f ∈ cc.files, f.path ∉ targetedPaths cc reqs →
      f ∈ (patchFiles llm cc reqs).files) ∧
    (patchFiles llm cc reqs).dependencies = cc.dependencies := by
  have hfilter : cc.files.filter (fun f => f.path ≠ "") = cc.files :=
    List.filter_eq_self.mpr (fun f hf => by simpa using hne f hf)
  have hcm : currentMapOf cc.files = cc.files.map (fun g => (g.path, g)) := by
    rw [currentMapOf, hfilter]
    rw [foldInsert_fresh cc.files [] hnd (fun f _ => rfl)]
    simp
  have hcmkeys : (currentMapOf cc.files).map (·.1) = cc.files.map (·.path) := by
    rw [hcm, List.map_map]
    rfl
  have hcminv : ∀ e ∈ currentMapOf cc.files, (e.2 : CodeFile).path = e.1 := by
    rw [hcm]
    intro e he
    obtain ⟨g, -, rfl⟩ := List.mem_map.mp he
    rfl
  by_cases hempty : currentMapOf cc.files = []
  · have hres : patchFiles llm cc reqs = cc := by
      simp only [patchFiles.eq_def, hempty, if_true]
    rw [hres]
    exact ⟨rfl, fun f hf _ => hf, rfl⟩
  · by_cases hpbp : patchByPathOf (currentMapOf cc.files) reqs = []
    · have hres : patchFiles llm cc reqs = cc := by
        simp only [patchFiles.eq_def, hpbp, if_true, ite_self]
      rw [hres]
      exact ⟨rfl, fun f hf _ => hf, rfl⟩
    · simp only [patchFiles.eq_def]
      rw [if_neg hempty, if_neg hpbp]
      -- the updated map: same keys, values keyed by path
      have hpmem := patchByPathOf_mem_current (currentMapOf cc.files) reqs
      have hukeys := foldUpdate_keys llm (patchByPathOf (currentMapOf cc.files) reqs)
        (currentMapOf cc.files) hpmem
      set updatedMap := (patchByPathOf (currentMapOf cc.files) reqs).foldl
        (fun um e => dictInsert um e.1 { path := e.1, content := llm e.1 e.2 })
        (currentMapOf cc.files) with hum
      have huinv : ∀ e ∈ updatedMap, (e.2 : CodeFile).path = e.1 :=
        foldUpdate_value_inv llm _ _ hcminv
      have humem : ∀ p ∈ cc.files.map (·.path), dictMem updatedMap p = true := by
        intro p hp
        rw [dictMem_keys, hukeys, hcmkeys]
        rw [List.any_eq_true]
        exact ⟨p, hp, by simp⟩
      have hfilter₂ : (cc.files.map (·.path)).filter (fun p => dictMem updatedMap p)
          = cc.files.map (·.path) :=
        List.filter_eq_self.mpr humem
      have hext : ((updatedMap.map (·.1)).filter
          (fun x => x ∉ cc.files.map (·.path))) = [] := by
        rw [hukeys, hcmkeys, List.filter_eq_nil_iff]
        intro p hp
        simpa using hp
      refine ⟨?_, ?_, rfl⟩
      · simp only [hfilter₂, hext, List.append_nil]
        exact filterMap_get_paths updatedMap (cc.files.map (·.path)) humem huinv
      · intro f hf htgt
        have hget : dictGet? updatedMap f.path = some f := by
          rw [hum]
          rw [foldUpdate_get_ne llm _ _ f.path ?_]
          · rw [hcm]
            exact get_pairs cc.files f hnd hf
          · intro e he hEq
            exact htgt (hEq ▸ List.mem_map_of_mem (·.1) he)
        simp only [hfilter₂, hext, List.append_nil]
        exact List.mem_filterMap.mpr ⟨f.path, List.mem_map_of_mem (·.path) hf, hget⟩

/-- A concrete two-file bundle with distinct non-empty paths. -/
def c8FrameBundle : GeneratedCode :=
  { files := [{ path := "app/main.py", content := "m" },
              { path := "app/a.py", content := "print(1)" }]
  , dependencies := ["fastapi", "sqlmodel"] }

/-- Witness for the amended C8 theorem at a concrete bundle and request. -/
theorem C8_patch_frame_witness :
    ((patchFiles c8Llm c8FrameBundle [c8Req]).files.map (·.path)
        = c8FrameBundle.files.map (·.path)) ∧
    (∀ f ∈ c8FrameBundle.files, f.path ∉ targetedPaths c8FrameBundle [c8Req] →
      f ∈ (patchFiles c8Llm c8FrameBundle [c8Req]).files) ∧
    (patchFiles c8Llm c8FrameBundle [c8Req]).dependencies
        = c8FrameBundle.dependencies :=
  C8_patch_frame c8Llm c8FrameBundle [c8Req] (by decide) (by decide)

/-! ## C3 / C10: `run_pipeline_generator`
(`app/agent/orchestrator.py`, lines 83–509)

The generator is embedded as a pure function from an oracle environment
to the list of emitted events.  Oracles answer the awaited external calls
(requirements, architecture, implementer, reviewer per attempt,
review-loop `patch_files` per attempt, repair run) and whether each
`create_artifact_record(stage=...)` call raises (keyed by its unique
stage tag).  `update_generation_run_status` and `session.rollback` are
wrapped in `_safely` helpers that swallow exceptions, so they need no
oracle.  Events are modelled by their `status` plus — where a claim needs
it — the completion artifact; other payload fields (messages, counts) are
not modelled. -/

/-- Python `s.lower()` (ASCII). -/
def pyLower (s : String) : String :=
  ⟨s.data.map Char.toLower⟩

/-- `(s or default).strip().lower()` for an optional-ish string knob. -/
def pyStripLower (s : String) : String :=
  pyLower (pyStrip s)

/-- `EntityField` from `artifacts.py`. -/
structure EntityField where
  name : String
  field_type : String
  required : Bool
deriving DecidableEq, Repr

/-- `Entity` from `artifacts.py`. -/
structure Entity where
  name : String
  fields : List EntityField
deriving DecidableEq, Repr

/-- `Endpoint` from `artifacts.py`. -/
structure Endpoint where
  method : String
  path : String
  description : String
deriving DecidableEq, Repr

/-- `ProjectCharter` from `artifacts.py`. -/
structure ProjectCharter where
  project_name : String
  description : String
  entities : List Entity
  endpoints : List Endpoint
  business_rules : List String
  auth_required : Bool
deriving DecidableEq, Repr

/-- The `review_artifact_for_completion` dictionary of the orchestrator:
the `ReviewReport` keys plus the keys the orchestrator adds
(`runtime_mode`, `repair`, `artifacts_released`), which are absent until
assigned.  The reviewer-exception fallback dictionary omits
`affected_files`/`patch_requests`; since those are only ever read through
`.get(..., [])`-style accesses or re-validation with defaults, the model
represents the missing keys as `[]`. -/
structure CompletionArtifact where
  approved : Bool
  issues : List Issue
  suggestions : List String
  security_score : Int
  affected_files : List String
  patch_requests : List FilePatchRequest
  final_code : List CodeFile
  runtime_mode : Option String
  repair : Option RepairReport
  artifacts_released : Option Bool
deriving DecidableEq, Repr

/-- An emitted SSE event: its `status`, and the completion artifact where
one is attached (other payload fields are not modelled). -/
structure Event where
  status : String
  artifact : Option CompletionArtifact
deriving DecidableEq, Repr

/-- An event with no modelled artifact. -/
def mkEv (s : String) : Event := ⟨s, none⟩

/-- Oracle environment for one `run_pipeline_generator` invocation. -/
structure PipelineEnv where
  runtimeMode : String
  startStage : String
  charterOverride : Option ProjectCharter
  architectureOverride : Option SystemArchitecture
  requirementsResult : Except String ProjectCharter
  architectureResult : Except String SystemArchitecture
  implementerResult : Except String GeneratedCode
  reviewerResult : Nat → Except String ReviewReport
  reviewPatchResult : Nat → Except String GeneratedCode
  repairResult : Except String RepairReport
  persistFailure : String → Bool

/-- `create_artifact_record(stage=tag, ...)`: raises according to the
oracle. -/
def stageRecord (env : PipelineEnv) (stage : String) : Except String Unit :=
  if env.persistFailure stage then
    .error ("artifact record failed: " ++ stage)
  else .ok ()

/-- `review.model_dump()` merged with
`review_artifact_for_completion["final_code"] = code.files`
(orchestrator.py:202-203). -/
def reviewToArtifact (review : ReviewReport) (code : GeneratedCode) :
    CompletionArtifact :=
  { approved := review.approved
  , issues := review.issues
  , suggestions := review.suggestions
  , security_score := review.security_score
  , affected_files := review.affected_files
  , patch_requests := review.patch_requests
  , final_code := code.files
  , runtime_mode := none
  , repair := none
  , artifacts_released := none }

/-- The fallback artifact of the reviewer `except` handler
(orchestrator.py:358-364). -/
def reviewFailedArtifact (err : String) (code : GeneratedCode) :
    CompletionArtifact :=
  { approved := false
  , issues := []
  , suggestions := ["Reviewer failed: " ++ err ++ ". Returning implementer output."]
  , security_score := 5
  , affected_files := []
  , patch_requests := []
  , final_code := code.files
  , runtime_mode := none
  , repair := none
  , artifacts_released := none }

/-- The initial `review_artifact_for_completion` (orchestrator.py:184-192). -/
def initialArtifact (code : GeneratedCode) : CompletionArtifact :=
  { approved := true
  , issues := []
  , suggestions := []
  , security_score := 7
  , affected_files := []
  , patch_requests := []
  , final_code := code.files
  , runtime_mode := none
  , repair := none
  , artifacts_released := none }

/-- The per-file issue map built inside the review loop
(orchestrator.py:280-286), identical in shape to
`RepairAgent._review_issue_map`. -/
def orchestratorIssueMap (issues : List Issue) : List (String × List String) :=
  issues.foldl
    (fun m issue =>
      let path := pyStrip issue.file_path
      if path = "" then m
      else issueMapAdd m path ("[" ++ issue.severity ++ "] " ++ issue.description))
    []

/-- `list(dict.fromkeys(xs))`: order-preserving deduplication. -/
def dedupStrings (l : List String) : List String :=
  l.foldl (fun acc p => if p ∈ acc then acc else acc ++ [p]) []

/-- The patch requests synthesized from issues and affected files when the
reviewer supplied none (orchestrator.py:293-303). -/
def synthesizedPatchRequests (issueMap : List (String × List String))
    (targeted : List String) : List FilePatchRequest :=
  targeted.map (fun path =>
    { path := path
    , reason := "Reviewer reported issues in this file"
    , instructions :=
        match dictGet? issueMap path with
        | some l =>
          if l = [] then ["Fix the reviewer-reported issues while preserving existing behavior."]
          else l
        | none => ["Fix the reviewer-reported issues while preserving existing behavior."] })

/-- How the review loop ends: normally, or with an exception caught by
the reviewer `except` handler (which needs the code current at the time
of the failure). -/
inductive ReviewOutcome where
  | ok (code : GeneratedCode) (artifact : CompletionArtifact)
  | failed (code : GeneratedCode) (err : String)

/-- The review loop (orchestrator.py:195-355): `fuel` iterations remain of
`MAX_REVIEW_ITERATIONS`, `attempt` is the 1-based pass number indexing the
reviewer and patch oracles.  Returns the emitted events and the outcome;
fuel exhaustion is the `for`-`else` branch. -/
def reviewLoop (env : PipelineEnv) :
    Nat → Nat → GeneratedCode → CompletionArtifact → List Event × ReviewOutcome
  | 0, _, code, artifact =>
    ([⟨"reviewer_done", some artifact⟩], .ok code artifact)
  | fuel + 1, attempt, code, artifact =>
    match env.reviewerResult attempt with
    | .error e => ([mkEv "reviewer"], .failed code e)
    | .ok review =>
      let artifact' := reviewToArtifact review code
      match stageRecord env ("reviewer_pass_" ++ toString attempt) with
      | .error e => ([mkEv "reviewer"], .failed code e)
      | .ok _ =>
        let meets := review.security_score ≥ 7
        let accepted := review.approved ∧ meets
        if accepted then
          ([mkEv "reviewer", mkEv "review_pass", ⟨"reviewer_done", some artifact'⟩],
           .ok code artifact')
        else if review.final_code ≠ [] then
          let code' : GeneratedCode :=
            { files := review.final_code, dependencies := code.dependencies }
          let artifact'' := { artifact' with final_code := code'.files }
          ([mkEv "reviewer", mkEv "review_pass", mkEv "revision"] ++
             (reviewLoop env fuel (attempt + 1) code' artifact'').1,
           (reviewLoop env fuel (attempt + 1) code' artifact'').2)
        else
          let issueMap := orchestratorIssueMap review.issues
          let affectedFromReview := review.affected_files.filter (fun p => pyStrip p ≠ "")
          let affectedFromIssues := issueMap.map (·.1)
          let targeted := dedupStrings (affectedFromReview ++ affectedFromIssues)
          let patchReqs :=
            if review.patch_requests = [] ∧ targeted ≠ [] then
              synthesizedPatchRequests issueMap targeted
            else review.patch_requests
          if patchReqs = [] then
            ([mkEv "reviewer", mkEv "review_pass", ⟨"reviewer_done", some artifact'⟩],
             .ok code artifact')
          else
            match env.reviewPatchResult attempt with
            | .error e => ([mkEv "reviewer", mkEv "review_pass"], .failed code e)
            | .ok code' =>
              let artifact'' := { artifact' with final_code := code'.files }
              ([mkEv "reviewer", mkEv "review_pass", mkEv "revision"] ++
                 (reviewLoop env fuel (attempt + 1) code' artifact'').1,
               (reviewLoop env fuel (attempt + 1) code' artifact'').2)

/-- The fallback repair artifact of the repair `except` handler
(orchestrator.py:434-444); its dictionary has no `fully_validated` key,
which reads as falsy. -/
def repairFailedReport (err : String) (code : GeneratedCode) : RepairReport :=
  { passed := false
  , repaired := false
  , attempts := 0
  , affected_files := []
  , failures := []
  , warnings := ["Repair stage failed: " ++ err]
  , patch_requests := []
  , final_code := code.files
  , summary := "Repair stage failed: " ++ err ++ ". Returning latest generated code."
  , fully_validated := false }

/-- The `for attempt in range(1, repair_result.attempts + 1)` loop of the
repair stage (orchestrator.py:409-431): emits a `repair_revision` event
then persists `repairer_pass_<attempt>`; a persistence failure is caught
by the surrounding repair `except` handler.  Returns the events plus the
escaping exception, if any. -/
def repairRevisionLoop (env : PipelineEnv) :
    Nat → Nat → List Event × Option String
  | 0, _ => ([], none)
  | remaining + 1, attempt =>
    match stageRecord env ("repairer_pass_" ++ toString attempt) with
    | .error e => ([mkEv "repair_revision"], some e)
    | .ok _ =>
      (mkEv "repair_revision" :: (repairRevisionLoop env remaining (attempt + 1)).1,
       (repairRevisionLoop env remaining (attempt + 1)).2)

/-- The completion-artifact assembly after the repair stage
(orchestrator.py:459-471). -/
def completeAfterRepair (artifact : CompletionArtifact) (code : GeneratedCode)
    (rep : RepairReport) : CompletionArtifact :=
  let a₁ := { artifact with
    final_code := code.files
    repair := some rep
    approved := rep.passed
    artifacts_released := some (code.files ≠ []) }
  let a₂ :=
    if rep.summary ∈ a₁.suggestions then a₁
    else { a₁ with suggestions := a₁.suggestions ++ [rep.summary] }
  if a₂.approved = true ∧ rep.fully_validated = false then
    { a₂ with suggestions := a₂.suggestions ++
        ["The generated API is deployable and artifacts are released, but some endpoint smoke checks still reported warnings."] }
  else a₂

/-- The final completion artifact of the sandbox path
(orchestrator.py:459-490): the post-repair assembly plus the
returned-despite-blocking-issues note when not approved. -/
def finalCompletionArtifact (artifact : CompletionArtifact)
    (code : GeneratedCode) (rep : RepairReport) : CompletionArtifact :=
  let artifact' := completeAfterRepair artifact code rep
  if artifact'.approved = false then
    { artifact' with suggestions := artifact'.suggestions ++
        ["Artifacts are being returned even though runtime validation still reports blocking issues. Review the generated files before deployment."] }
  else artifact'

/-- The tail of the repair stage (orchestrator.py:445-503): persist
`repairer_final` (outside the repair `try`, so a failure escapes to the
outer handler), assemble the completion artifact, and emit
`repairer_done` plus the terminal `completed` event. -/
def finishRepair (env : PipelineEnv)
    (revEvents postReviewEvents repairEvents : List Event)
    (artifact : CompletionArtifact) (code : GeneratedCode)
    (rep : RepairReport) : List Event × Option String :=
  match stageRecord env "repairer_final" with
  | .error e =>
    (revEvents ++ postReviewEvents ++ [mkEv "repairer"] ++ repairEvents, some e)
  | .ok _ =>
    (revEvents ++ postReviewEvents ++ [mkEv "repairer"] ++ repairEvents ++
      [⟨"repairer_done", none⟩,
       ⟨"completed", some (finalCompletionArtifact artifact code rep)⟩], none)

/-- The `local_cli` mutation of the completion artifact
(orchestrator.py:376-380): force approval, record the runtime mode and
note the skipped sandbox repair. -/
def localCliArtifact (artifact : CompletionArtifact) : CompletionArtifact :=
  { artifact with
    runtime_mode := some "local_cli"
    approved := true
    suggestions := artifact.suggestions ++
      ["Skipped backend Docker sandbox repair for CLI local runtime mode. The CLI will validate startup locally."] }

/-- The flow after the review loop resolved to a current `code` and
completion artifact (orchestrator.py:375-503): skip repair entirely in
`local_cli` mode, otherwise run the repair stage with its `except`
handler and finish. -/
def afterReview (env : PipelineEnv) (revEvents postReviewEvents : List Event)
    (code : GeneratedCode) (artifact : CompletionArtifact) :
    List Event × Option String :=
  if pyStripLower env.runtimeMode = "local_cli" then
    (revEvents ++ postReviewEvents ++
      [⟨"completed", some (localCliArtifact artifact)⟩], none)
  else
    match env.repairResult with
    | .error e =>
      finishRepair env revEvents postReviewEvents [] artifact code
        (repairFailedReport e code)
    | .ok rres =>
      let newCode : GeneratedCode :=
        { files := rres.final_code, dependencies := code.dependencies }
      match (repairRevisionLoop env rres.attempts 1).2 with
      | some e =>
        finishRepair env revEvents postReviewEvents
          (repairRevisionLoop env rres.attempts 1).1 artifact newCode
          (repairFailedReport e newCode)
      | none =>
        finishRepair env revEvents postReviewEvents
          (repairRevisionLoop env rres.attempts 1).1 artifact newCode rres

/-- The body of the orchestrator's outer `try` from the review loop on
(orchestrator.py:180-503), given the implementer's bundle. -/
def pipelineAfterImplementer (env : PipelineEnv) (code₀ : GeneratedCode) :
    List Event × Option String :=
  let revEvents := (reviewLoop env 3 1 code₀ (initialArtifact code₀)).1
  match (reviewLoop env 3 1 code₀ (initialArtifact code₀)).2 with
  | .ok c a => afterReview env revEvents [] c a
  | .failed c e =>
    afterReview env revEvents
      [⟨"reviewer_done", some (reviewFailedArtifact e c)⟩] c
      (reviewFailedArtifact e c)

/-- The early stages of the outer `try` (orchestrator.py:101-178): RAG is
disabled in the source; requirements and architecture run only when
`start_stage` normalizes to `"requirements"`, the implementer always. -/
def pipelineStages (env : PipelineEnv) : List Event × Option String :=
  let stageMode := pyStripLower env.startStage
  if stageMode = "requirements" then
    match env.requirementsResult with
    | .error e => ([mkEv "requirements"], some e)
    | .ok _ =>
      match stageRecord env "requirements" with
      | .error e => ([mkEv "requirements"], some e)
      | .ok _ =>
        match env.architectureResult with
        | .error e =>
          ([mkEv "requirements", mkEv "requirements_done", mkEv "architecture"],
           some e)
        | .ok _ =>
          match stageRecord env "architecture" with
          | .error e =>
            ([mkEv "requirements", mkEv "requirements_done", mkEv "architecture"],
             some e)
          | .ok _ =>
            ([mkEv "requirements", mkEv "requirements_done",
              mkEv "architecture", mkEv "architecture_done"], none)
  else if stageMode = "implementer" then
    match env.architectureOverride with
    | none => ([], some "architecture_override is required when starting from implementer")
    | some _ =>
      if env.charterOverride.isSome then
        ([mkEv "requirements_done", mkEv "architecture_done"], none)
      else ([mkEv "architecture_done"], none)
  else ([], some ("Unsupported start_stage: " ++ env.startStage))

/-- The whole body of the outer `try` (orchestrator.py:101-503). -/
def pipelineTry (env : PipelineEnv) : List Event × Option String :=
  match (pipelineStages env).2 with
  | some e => ((pipelineStages env).1, some e)
  | none =>
    match env.implementerResult with
    | .error e => ((pipelineStages env).1 ++ [mkEv "implementer"], some e)
    | .ok code₀ =>
      match stageRecord env "implementer" with
      | .error e => ((pipelineStages env).1 ++ [mkEv "implementer"], some e)
      | .ok _ =>
        ((pipelineStages env).1 ++ [mkEv "implementer", mkEv "implementer_done"] ++
           (pipelineAfterImplementer env code₀).1,
         (pipelineAfterImplementer env code₀).2)

/-- `run_pipeline_generator` (orchestrator.py:83-509): the initial
`starting` event, the `try` body, and the outer `except` handler that
rolls back and emits a terminal `error` event. -/
def runPipeline (env : PipelineEnv) : List Event :=
  match (pipelineTry env).2 with
  | some _ => mkEv "starting" :: (pipelineTry env).1 ++ [⟨"error", none⟩]
  | none => mkEv "starting" :: (pipelineTry env).1

/-- Terminal statuses per the event contract. -/
def isTerminalStatus (s : String) : Bool :=
  s = "completed" || s = "error"

/-- Shorthand: an event that is not terminal. -/
def nonTerminal (e : Event) : Prop :=
  isTerminalStatus e.status = false

theorem repairRevisionLoop_no_terminal (env : PipelineEnv) :
    ∀ (n k : Nat), ∀ e ∈ (repairRevisionLoop env n k).1, nonTerminal e := by
  intro n
  induction n with
  | zero =>
    intro k e he
    simp only [repairRevisionLoop] at he
    exact absurd he (List.not_mem_nil e)
  | succ m ih =>
    intro k e he
    rw [repairRevisionLoop] at he
    split at he
    · rw [List.mem_singleton] at he; subst he; rfl
    · rcases List.mem_cons.mp he with rfl | h
      · rfl
      · exact ih (k + 1) e h

theorem reviewLoop_no_terminal (env : PipelineEnv) :
    ∀ (fuel attempt : Nat) (code : GeneratedCode) (artifact : CompletionArtifact),
      ∀ e ∈ (reviewLoop env fuel attempt code artifact).1, nonTerminal e := by
  intro fuel
  induction fuel with
  | zero =>
    intro attempt code artifact e he
    simp only [reviewLoop] at he
    rw [List.mem_singleton] at he; subst he; rfl
  | succ n ih =>
    intro attempt code artifact e he
    rw [reviewLoop] at he
    repeat' (first | split at he | simp only [] at he)
    all_goals
      first
      | exact absurd he (List.not_mem_nil e)
      | (rw [List.mem_singleton] at he; subst he; rfl)
      | (rcases List.mem_append.mp he with h | h
         · simp only [List.mem_cons, List.not_mem_nil, or_false] at h
           first
           | (rcases h with rfl | rfl | rfl <;> rfl)
           | (rcases h with rfl | rfl <;> rfl)
           | (subst h; rfl)
         · exact ih _ _ _ e h)
      | (simp only [List.mem_cons, List.not_mem_nil, or_false] at he
         first
         | (rcases he with rfl | rfl | rfl <;> rfl)
         | (rcases he with rfl | rfl <;> rfl)
         | (subst he; rfl))

/-- What `finishRepair` guarantees, given non-terminal inputs. -/
theorem finishRepair_spec (env : PipelineEnv)
    (rev post rep : List Event) (artifact : CompletionArtifact)
    (code : GeneratedCode) (r : RepairReport)
    (hrev : ∀ e ∈ rev, nonTerminal e) (hpost : ∀ e ∈ post, nonTerminal e)
    (hrep : ∀ e ∈ rep, nonTerminal e) :
    ((finishRepair env rev post rep artifact code r).2 = none →
      ∃ pre a, (finishRepair env rev post rep artifact code r).1 =
          pre ++ [⟨"completed", some a⟩] ∧ ∀ e ∈ pre, nonTerminal e) ∧
    ((finishRepair env rev post rep artifact code r).2 ≠ none →
      ∀ e ∈ (finishRepair env rev post rep artifact code r).1, nonTerminal e) ∧
    (env.persistFailure "repairer_final" = false →
      (finishRepair env rev post rep artifact code r).2 = none) := by
  rw [finishRepair]
  split
  case h_1 e heq =>
    refine ⟨fun h => absurd h (by simp), fun _ => ?_, fun hp => ?_⟩
    · intro ev hev
      rcases List.mem_append.mp hev with h | h
      · rcases List.mem_append.mp h with h' | h'
        · rcases List.mem_append.mp h' with h'' | h''
          · exact hrev ev h''
          · exact hpost ev h''
        · rw [List.mem_singleton] at h'; subst h'; rfl
      · exact hrep ev h
    · exfalso
      rw [stageRecord, if_neg (by simp [hp])] at heq
      exact Except.noConfusion heq
  case h_2 u heq =>
    refine ⟨fun _ => ?_, fun h => absurd rfl h, fun _ => rfl⟩
    refine ⟨rev ++ post ++ [mkEv "repairer"] ++ rep ++ [⟨"repairer_done", none⟩],
      finalCompletionArtifact artifact code r, ?_, ?_⟩
    · simp [List.append_assoc]
    · intro ev hev
      rcases List.mem_append.mp hev with h | h
      · rcases List.mem_append.mp h with h' | h'
        · rcases List.mem_append.mp h' with h'' | h''
          · rcases List.mem_append.mp h'' with h₃ | h₃
            · exact hrev ev h₃
            · exact hpost ev h₃
          · rw [List.mem_singleton] at h''; subst h''; rfl
        · exact hrep ev h'
      · rw [List.mem_singleton] at h; subst h; rfl

/-- What `afterReview` guarantees, given non-terminal inputs. -/
theorem afterReview_spec (env : PipelineEnv) (rev post : List Event)
    (code : GeneratedCode) (artifact : CompletionArtifact)
    (hrev : ∀ e ∈ rev, nonTerminal e) (hpost : ∀ e ∈ post, nonTerminal e) :
    ((afterReview env rev post code artifact).2 = none →
      ∃ pre a, (afterReview env rev post code artifact).1 =
          pre ++ [⟨"completed", some a⟩] ∧ ∀ e ∈ pre, nonTerminal e) ∧
    ((afterReview env rev post code artifact).2 ≠ none →
      ∀ e ∈ (afterReview env rev post code artifact).1, nonTerminal e) ∧
    (env.persistFailure "repairer_final" = false →
      (afterReview env rev post code artifact).2 = none) := by
  rw [afterReview]
  split
  · -- local_cli branch
    refine ⟨fun _ => ?_, fun h => absurd rfl h, fun _ => rfl⟩
    refine ⟨rev ++ post, localCliArtifact artifact, by simp [List.append_assoc], ?_⟩
    intro ev hev
    rcases List.mem_append.mp hev with h | h
    · exact hrev ev h
    · exact hpost ev h
  · split
    · exact finishRepair_spec env rev post [] artifact code _ hrev hpost
        (fun e he => absurd he (List.not_mem_nil e))
    · split
      · exact finishRepair_spec env rev post _ artifact _ _ hrev hpost
          (repairRevisionLoop_no_terminal env _ 1)
      · exact finishRepair_spec env rev post _ artifact _ _ hrev hpost
          (repairRevisionLoop_no_terminal env _ 1)

/-- What the post-implementer pipeline guarantees. -/
theorem pipelineAfterImplementer_spec (env : PipelineEnv) (code₀ : GeneratedCode) :
    ((pipelineAfterImplementer env code₀).2 = none →
      ∃ pre a, (pipelineAfterImplementer env code₀).1 =
          pre ++ [⟨"completed", some a⟩] ∧ ∀ e ∈ pre, nonTerminal e) ∧
    ((pipelineAfterImplementer env code₀).2 ≠ none →
      ∀ e ∈ (pipelineAfterImplementer env code₀).1, nonTerminal e) ∧
    (env.persistFailure "repairer_final" = false →
      (pipelineAfterImplementer env code₀).2 = none) := by
  rw [pipelineAfterImplementer]
  have hrev := reviewLoop_no_terminal env 3 1 code₀ (initialArtifact code₀)
  split
  · exact afterReview_spec env _ [] _ _ hrev
      (fun e he => absurd he (List.not_mem_nil e))
  · refine afterReview_spec env _ _ _ _ hrev ?_
    intro e he
    rw [List.mem_singleton] at he; subst he; rfl

/-- The pre-implementer stage events are never terminal. -/
theorem pipelineStages_no_terminal (env : PipelineEnv) :
    ∀ e ∈ (pipelineStages env).1, nonTerminal e := by
  intro e he
  rw [pipelineStages] at he
  split at he
  · split at he
    · rw [List.mem_singleton] at he; subst he; rfl
    · split at he
      · rw [List.mem_singleton] at he; subst he; rfl
      · split at he
        · simp only [List.mem_cons, List.not_mem_nil, or_false] at he
          rcases he with rfl | rfl | rfl <;> rfl
        · split at he
          · simp only [List.mem_cons, List.not_mem_nil, or_false] at he
            rcases he with rfl | rfl | rfl <;> rfl
          · simp only [List.mem_cons, List.not_mem_nil, or_false] at he
            rcases he with rfl | rfl | rfl | rfl <;> rfl
  · split at he
    · split at he
      · exact absurd he (List.not_mem_nil e)
      · split at he
        · simp only [List.mem_cons, List.not_mem_nil, or_false] at he
          rcases he with rfl | rfl <;> rfl
        · rw [List.mem_singleton] at he; subst he; rfl
    · exact absurd he (List.not_mem_nil e)

/-- What the whole `try` body guarantees. -/
theorem pipelineTry_spec (env : PipelineEnv) :
    ((pipelineTry env).2 = none →
      ∃ pre a, (pipelineTry env).1 = pre ++ [⟨"completed", some a⟩] ∧
        ∀ e ∈ pre, nonTerminal e) ∧
    ((pipelineTry env).2 ≠ none →
      ∀ e ∈ (pipelineTry env).1, nonTerminal e) := by
  have hst := pipelineStages_no_terminal env
  rw [pipelineTry]
  split
  · refine ⟨fun h => absurd h (by simp), fun _ => hst⟩
  · split
    · refine ⟨fun h => absurd h (by simp), fun _ => ?_⟩
      intro e he
      rcases List.mem_append.mp he with h | h
      · exact hst e h
      · rw [List.mem_singleton] at h; subst h; rfl
    · split
      · refine ⟨fun h => absurd h (by simp), fun _ => ?_⟩
        intro e he
        rcases List.mem_append.mp he with h | h
        · exact hst e h
        · rw [List.mem_singleton] at h; subst h; rfl
      · obtain ⟨hnone, hsome, -⟩ := pipelineAfterImplementer_spec env _
        constructor
        · intro h
          obtain ⟨pre, a, hshape, hpre⟩ := hnone h
          refine ⟨(pipelineStages env).1 ++ [mkEv "implementer", mkEv "implementer_done"] ++ pre,
            a, ?_, ?_⟩
          · simp only [hshape, List.append_assoc]
          · intro e he
            rcases List.mem_append.mp he with h' | h'
            · rcases List.mem_append.mp h' with h'' | h''
              · exact hst e h''
              · simp only [List.mem_cons, List.not_mem_nil, or_false] at h''
                rcases h'' with rfl | rfl <;> rfl
            · exact hpre e h'
        · intro h e he
          rcases List.mem_append.mp he with h' | h'
          · rcases List.mem_append.mp h' with h'' | h''
            · exact hst e h''
            · simp only [List.mem_cons, List.not_mem_nil, or_false] at h''
              rcases h'' with rfl | rfl <;> rfl
          · exact hsome h e h'

/-- C3. Every fully-consumed run of the pipeline generator emits exactly
one terminal event and it is the last event, with status `completed` or
`error`; and when all stages up to the implementer and all artifact
persistence succeed, an exception raised inside the reviewer stage or the
repair stage still results in a terminal `completed` event rather than an
`error` event. -/
theorem C3_pipeline_terminal_events (env : PipelineEnv) :
    (((runPipeline env).filter (fun e => isTerminalStatus e.status)).length = 1 ∧
      ∃ e, (runPipeline env).getLast? = some e ∧ isTerminalStatus e.status = true) ∧
    ((∀ s, env.persistFailure s = false) →
      env.requirementsResult.isOk = true →
      env.architectureResult.isOk = true →
      env.implementerResult.isOk = true →
      pyStripLower env.startStage = "requirements" →
      ((∃ err, env.reviewerResult 1 = Except.error err) ∨
        (∃ err, env.repairResult = Except.error err)) →
      ∃ a, (runPipeline env).getLast? = some ⟨"completed", a⟩) := by
  obtain ⟨hnone, hsome⟩ := pipelineTry_spec env
  constructor
  · rw [runPipeline]
    split
    case h_1 e heq =>
      have hnt := hsome (by rw [heq]; simp)
      constructor
      · rw [show (mkEv "starting" :: (pipelineTry env).1 ++ [(⟨"error", none⟩ : Event)])
            = (mkEv "starting" :: (pipelineTry env).1) ++ [(⟨"error", none⟩ : Event)] by simp,
          List.filter_append]
        rw [List.filter_eq_nil_iff.mpr ?_]
        · rfl
        · intro ev hev
          rcases List.mem_cons.mp hev with rfl | h
          · simp [mkEv, isTerminalStatus]
          · have := hnt ev h
            simp only [nonTerminal] at this
            simp [this]
      · refine ⟨⟨"error", none⟩, ?_, rfl⟩
        rw [show (mkEv "starting" :: (pipelineTry env).1 ++ [(⟨"error", none⟩ : Event)])
            = (mkEv "starting" :: (pipelineTry env).1) ++ [(⟨"error", none⟩ : Event)] by simp]
        exact List.getLast?_concat _
    case h_2 heq =>
      obtain ⟨pre, a, hshape, hpre⟩ := hnone heq
      constructor
      · rw [hshape]
        rw [show (mkEv "starting" :: (pre ++ [(⟨"completed", some a⟩ : Event)]))
            = (mkEv "starting" :: pre) ++ [(⟨"completed", some a⟩ : Event)] by simp,
          List.filter_append]
        rw [List.filter_eq_nil_iff.mpr ?_]
        · rfl
        · intro ev hev
          rcases List.mem_cons.mp hev with rfl | h
          · simp [mkEv, isTerminalStatus]
          · have := hpre ev h
            simp only [nonTerminal] at this
            simp [this]
      · refine ⟨⟨"completed", some a⟩, ?_, rfl⟩
        rw [hshape]
        rw [show (mkEv "starting" :: (pre ++ [(⟨"completed", some a⟩ : Event)]))
            = (mkEv "starting" :: pre) ++ [(⟨"completed", some a⟩ : Event)] by simp]
        exact List.getLast?_concat _
  · intro hp hreq harch himp hstage _hfail
    have hstages : (pipelineStages env).2 = none := by
      rw [pipelineStages]
      rw [if_pos hstage]
      match hre : env.requirementsResult with
      | .error e => rw [hre] at hreq; simp [Except.isOk, Except.toBool] at hreq
      | .ok ch =>
        rw [stageRecord, if_neg (by simp [hp])]
        match har : env.architectureResult with
        | .error e => rw [har] at harch; simp [Except.isOk, Except.toBool] at harch
        | .ok ar => rw [stageRecord, if_neg (by simp [hp])]
    have htry : (pipelineTry env).2 = none := by
      rw [pipelineTry]
      split
      case h_1 e heq => rw [heq] at hstages; exact absurd hstages (by simp)
      case h_2 heq =>
        match him : env.implementerResult with
        | .error e => rw [him] at himp; simp [Except.isOk, Except.toBool] at himp
        | .ok code₀ =>
          rw [stageRecord, if_neg (by simp [hp])]
          exact (pipelineAfterImplementer_spec env code₀).2.2 (hp _)
    obtain ⟨pre, a, hshape, -⟩ := hnone htry
    refine ⟨some a, ?_⟩
    rw [runPipeline]
    split
    case h_1 e heq => rw [heq] at htry; exact absurd htry (by simp)
    case h_2 heq =>
      rw [hshape]
      rw [show (mkEv "starting" :: (pre ++ [(⟨"completed", some a⟩ : Event)]))
          = (mkEv "starting" :: pre) ++ [(⟨"completed", some a⟩ : Event)] by simp]
      exact List.getLast?_concat _

/-- A concrete charter for witness environments. -/
def c3Charter : ProjectCharter :=
  { project_name := "demo", description := "a demo", entities := [],
    endpoints := [], business_rules := [], auth_required := false }

/-- A concrete architecture for witness environments. -/
def c3Arch : SystemArchitecture :=
  { design_document := "doc", mermaid_diagram := "graph TD", components := [],
    data_model_summary := [], endpoint_summary := [] }

/-- A concrete implementer bundle for witness environments. -/
def c3Code : GeneratedCode :=
  { files := [{ path := "app/main.py", content := "app = 1" }],
    dependencies := ["fastapi"] }

/-- A concrete repair report for witness environments. -/
def c3Repair : RepairReport :=
  { passed := true, repaired := false, attempts := 0, affected_files := [],
    failures := [], warnings := [], patch_requests := [], final_code := [],
    summary := "sandbox ok" }

/-- A concrete pipeline environment whose reviewer stage raises on every
invocation while every other stage succeeds. -/
def c3Env : PipelineEnv :=
  { runtimeMode := "docker"
  , startStage := "requirements"
  , charterOverride := none
  , architectureOverride := none
  , requirementsResult := .ok c3Charter
  , architectureResult := .ok c3Arch
  , implementerResult := .ok c3Code
  , reviewerResult := fun _ => .error "reviewer agent crashed"
  , reviewPatchResult := fun _ => .error "unused"
  , repairResult := .ok c3Repair
  , persistFailure := fun _ => false }

theorem C3_pipeline_terminal_events_witness :
    ∃ a, (runPipeline c3Env).getLast? = some ⟨"completed", a⟩ :=
  (C3_pipeline_terminal_events c3Env).2 (fun _ => rfl) rfl rfl rfl (by decide)
    (Or.inl ⟨"reviewer agent crashed", rfl⟩)

/-- In `local_cli` mode the post-review flow skips repair entirely and
terminates with the forced artifact (orchestrator.py:375-388). -/
theorem afterReview_local_cli (env : PipelineEnv)
    (hmode : pyStripLower env.runtimeMode = "local_cli")
    (rev post : List Event) (code : GeneratedCode)
    (artifact : CompletionArtifact) :
    afterReview env rev post code artifact =
      (rev ++ post ++ [⟨"completed", some (localCliArtifact artifact)⟩], none) := by
  rw [afterReview, if_pos hmode]

/-- In `local_cli` mode the post-implementer pipeline ends with the
forced `local_cli` artifact of some review-loop artifact. -/
theorem pipelineAfterImplementer_local_cli (env : PipelineEnv)
    (code₀ : GeneratedCode)
    (hmode : pyStripLower env.runtimeMode = "local_cli") :
    ∃ pre a,
      (pipelineAfterImplementer env code₀).1 =
        pre ++ [⟨"completed", some (localCliArtifact a)⟩] ∧
      (pipelineAfterImplementer env code₀).2 = none := by
  rw [pipelineAfterImplementer]
  split
  case h_1 c a heq =>
    rw [afterReview_local_cli env hmode]
    exact ⟨(reviewLoop env 3 1 code₀ (initialArtifact code₀)).1, a,
      by simp, rfl⟩
  case h_2 c e heq =>
    rw [afterReview_local_cli env hmode]
    exact ⟨(reviewLoop env 3 1 code₀ (initialArtifact code₀)).1 ++
        [⟨"reviewer_done", some (reviewFailedArtifact e c)⟩],
      reviewFailedArtifact e c, by simp, rfl⟩

/-- When the early stages and their persistence succeed, the
pre-implementer block raises no exception. -/
theorem pipelineStages_ok (env : PipelineEnv)
    (hp : ∀ s, env.persistFailure s = false)
    (hreq : env.requirementsResult.isOk = true)
    (harch : env.architectureResult.isOk = true)
    (hstage : pyStripLower env.startStage = "requirements") :
    (pipelineStages env).2 = none := by
  rw [pipelineStages]
  rw [if_pos hstage]
  match hre : env.requirementsResult with
  | .error e => rw [hre] at hreq; simp [Except.isOk, Except.toBool] at hreq
  | .ok ch =>
    rw [stageRecord, if_neg (by simp [hp])]
    match har : env.architectureResult with
    | .error e => rw [har] at harch; simp [Except.isOk, Except.toBool] at harch
    | .ok ar => rw [stageRecord, if_neg (by simp [hp])]

/-- C10. When the runtime mode normalizes to `local_cli` and the stages
up to the implementer succeed, the terminal `completed` event's artifact
always has `approved = true` and `runtime_mode = "local_cli"`, for every
reviewer oracle — including one that rejects the code or raises. -/
theorem C10_local_cli_forces_approval (env : PipelineEnv)
    (hmode : pyStripLower env.runtimeMode = "local_cli")
    (hp : ∀ s, env.persistFailure s = false)
    (hreq : env.requirementsResult.isOk = true)
    (harch : env.architectureResult.isOk = true)
    (himp : env.implementerResult.isOk = true)
    (hstage : pyStripLower env.startStage = "requirements") :
    ∃ a, (runPipeline env).getLast? = some ⟨"completed", some a⟩ ∧
      a.approved = true ∧ a.runtime_mode = some "local_cli" := by
  have hstages := pipelineStages_ok env hp hreq harch hstage
  obtain ⟨code₀, him⟩ : ∃ c, env.implementerResult = .ok c := by
    match h : env.implementerResult with
    | .error e => rw [h] at himp; simp [Except.isOk, Except.toBool] at himp
    | .ok c => exact ⟨c, rfl⟩
  obtain ⟨pre, a, hshape, hnone⟩ :=
    pipelineAfterImplementer_local_cli env code₀ hmode
  have htry : pipelineTry env =
      ((pipelineStages env).1 ++ [mkEv "implementer", mkEv "implementer_done"] ++
        (pre ++ [⟨"completed", some (localCliArtifact a)⟩]), none) := by
    rw [pipelineTry]
    simp only [hstages, him]
    rw [stageRecord, if_neg (by simp [hp])]
    rw [hshape, hnone]
  refine ⟨localCliArtifact a, ?_, rfl, rfl⟩
  rw [runPipeline, htry]
  simp only []
  rw [show (mkEv "starting" ::
        ((pipelineStages env).1 ++ [mkEv "implementer", mkEv "implementer_done"] ++
          (pre ++ [(⟨"completed", some (localCliArtifact a)⟩ : Event)])))
      = (mkEv "starting" :: ((pipelineStages env).1 ++
          [mkEv "implementer", mkEv "implementer_done"] ++ pre)) ++
        [(⟨"completed", some (localCliArtifact a)⟩ : Event)] by simp]
  exact List.getLast?_concat _

/-- A pipeline environment in `local_cli` runtime mode whose reviewer
rejects the code on every pass. -/
def c10Env : PipelineEnv :=
  { runtimeMode := "local_cli"
  , startStage := "requirements"
  , charterOverride := none
  , architectureOverride := none
  , requirementsResult := .ok c3Charter
  , architectureResult := .ok c3Arch
  , implementerResult := .ok c3Code
  , reviewerResult := fun _ => .ok
      { issues := [{ severity := "major", description := "rejected",
                     file_path := "app/main.py", line_number := none }]
      , suggestions := []
      , security_score := 2
      , approved := false
      , affected_files := ["app/main.py"]
      , patch_requests := []
      , final_code := [] }
  , reviewPatchResult := fun _ => .ok c3Code
  , repairResult := .ok c3Repair
  , persistFailure := fun _ => false }

theorem C10_local_cli_forces_approval_witness :
    ∃ a, (runPipeline c10Env).getLast? = some ⟨"completed", some a⟩ ∧
      a.approved = true ∧ a.runtime_mode = some "local_cli" :=
  C10_local_cli_forces_approval c10Env (by decide) (fun _ => rfl) rfl rfl rfl
    (by decide)

/-! ## C4: `ArchitectureAgent._normalize_mermaid`
(`app/agent/architecture_agent.py`, lines 13-76)

The normalizer is a chain of anchored regex substitutions and line
filters.  Each regex of the source is embedded as a structural scanner
over the character list; scanners that advance by one character on a
failed match use an explicit fuel bounded by the input length, so that
every definition kernel-reduces. -/

/-- Python `\w`: an ASCII word character (the diagrams are ASCII). -/
def isWordChar (c : Char) : Bool :=
  c.isAlpha || c.isDigit || c = '_'

/-- `str.strip()` on a character list. -/
def pyStripList (cs : List Char) : List Char :=
  stripTrailing isPyWs (stripLeading isPyWs cs)

/-- Consume the literal word `w` (given lowercase) case-insensitively
from the head of `cs`, returning the remainder. -/
def dropCI (w : List Char) (cs : List Char) : Option (List Char) :=
  match w, cs with
  | [], rest => some rest
  | _ :: _, [] => none
  | x :: ws, c :: rest => if c.toLower = x then dropCI ws rest else none

/-- Python `str.split(sep)` for a one-character separator. -/
def splitOnChar (sep : Char) : List Char → List (List Char)
  | [] => [[]]
  | c :: rest =>
    match splitOnChar sep rest with
    | [] => [[c]]
    | h :: t => if c = sep then [] :: h :: t else (c :: h) :: t

/-- `"\n".join(...)` on character-list lines. -/
def joinLinesChar : List (List Char) → List Char
  | [] => []
  | [l] => l
  | l :: rest => l ++ '\n' :: joinLinesChar rest

/-- The zero-width / BOM class of the leading cleanup substitution:
U+FEFF and U+200B through U+200D. -/
def isZeroWidth (c : Char) : Bool :=
  c = Char.ofNat 65279 || (Char.ofNat 8203 ≤ c && c ≤ Char.ofNat 8205)

/-- A backtick character, for the fence matcher. -/
def btick : Char := Char.ofNat 96

/-- The fence stripper:
`re.match(r"……(?:mermaid)?\s*([\s\S]*?)\s*……$", text, IGNORECASE)` where
`……` is a triple backtick; on a match the text becomes `group(1).strip()`.
Because the text was `strip()`ped first, the match condition is: the text
starts with a triple backtick (optionally followed by `mermaid`,
case-insensitively) and ends with a triple backtick; the lazy group is
then the remainder with trailing whitespace and the closing backticks
removed. -/
def stripFenceList (cs : List Char) : List Char :=
  if cs.take 3 = [btick, btick, btick] then
    let rest := cs.drop 3
    let rest :=
      match dropCI "mermaid".toList rest with
      | some r => r
      | none => rest
    if decide (3 ≤ rest.length) && rest.drop (rest.length - 3) = [btick, btick, btick] then
      pyStripList (rest.take (rest.length - 3))
    else cs
  else cs

/-- `if lines and lines[0].strip().lower() == "mermaid": lines = lines[1:]`. -/
def dropMermaidHeadLine (ls : List (List Char)) : List (List Char) :=
  match ls with
  | [] => []
  | l0 :: rest =>
    if (pyStripList l0).map Char.toLower = "mermaid".toList then rest else ls

/-- `re.match` part of `^\s*(flowchart|graph)\s+(LR|RL)\b` (IGNORECASE):
on success, the remainder after the matched span. -/
def matchFlowchartLR (cs : List Char) : Option (List Char) :=
  let cs0 := cs.dropWhile isPyWs
  match (dropCI "flowchart".toList cs0).orElse (fun _ => dropCI "graph".toList cs0) with
  | none => none
  | some r =>
    if (r.takeWhile isPyWs).isEmpty then none
    else
      let r2 := r.dropWhile isPyWs
      match (dropCI "lr".toList r2).orElse (fun _ => dropCI "rl".toList r2) with
      | none => none
      | some q => if isWordChar (q.headD ' ') then none else some q

/-- `re.match(r"^\s*(flowchart|graph)\s+\w+\b", text, IGNORECASE)` as a
Boolean. -/
def hasDiagramHeader (cs : List Char) : Bool :=
  let cs0 := cs.dropWhile isPyWs
  match (dropCI "flowchart".toList cs0).orElse (fun _ => dropCI "graph".toList cs0) with
  | none => false
  | some r =>
    !(r.takeWhile isPyWs).isEmpty && isWordChar ((r.dropWhile isPyWs).headD ' ')

/-- `re.match` part of `^\s*graph\s+TD\b` (IGNORECASE): on success, the
remainder after the matched span. -/
def matchGraphTD (cs : List Char) : Option (List Char) :=
  let cs0 := cs.dropWhile isPyWs
  match dropCI "graph".toList cs0 with
  | none => none
  | some r =>
    if (r.takeWhile isPyWs).isEmpty then none
    else
      match dropCI "td".toList (r.dropWhile isPyWs) with
      | none => none
      | some q => if isWordChar (q.headD ' ') then none else some q

/-- `re.match(r"^\s*note\s+(left|right)\s+of\b", line, IGNORECASE)`:
the per-line filter of the fragile-note removal. -/
def isNoteLine (l : List Char) : Bool :=
  let cs0 := l.dropWhile isPyWs
  match dropCI "note".toList cs0 with
  | none => false
  | some r =>
    if (r.takeWhile isPyWs).isEmpty then false
    else
      let r2 := r.dropWhile isPyWs
      match (dropCI "left".toList r2).orElse (fun _ => dropCI "right".toList r2) with
      | none => false
      | some r3 =>
        if (r3.takeWhile isPyWs).isEmpty then false
        else
          match dropCI "of".toList (r3.dropWhile isPyWs) with
          | none => false
          | some r4 => !isWordChar (r4.headD ' ')

/-- The tail of one dotted-edge match, after the literal `---`:
`\s*\|\s*([^|\n]+?)\s*\|\s*`; returns the stripped label group and the
remainder after the trailing `\s*`. -/
def dottedTail (cs : List Char) : Option (List Char × List Char) :=
  match cs.dropWhile isPyWs with
  | '|' :: cs2 =>
    let content := cs2.takeWhile (fun d => d ≠ '|' && d ≠ '\n')
    if content.isEmpty then none
    else
      match cs2.drop content.length with
      | '|' :: cs3 => some (pyStripList content, cs3.dropWhile isPyWs)
      | _ => none
  | _ => none

/-- `re.sub(r"---\s*\|\s*([^|\n]+?)\s*\|\s*", " -->|<label>| ", text)`:
the global left-to-right scan, one fuel unit per scan position. -/
def dottedEdgesFuel : Nat → List Char → List Char
  | 0, cs => cs
  | _ + 1, [] => []
  | fuel + 1, c :: rest =>
    if c = '-' then
      match rest with
      | '-' :: '-' :: rest2 =>
        match dottedTail rest2 with
        | some (label, rest3) =>
          " -->|".toList ++ label ++ "| ".toList ++ dottedEdgesFuel fuel rest3
        | none => c :: dottedEdgesFuel fuel rest
      | _ => c :: dottedEdgesFuel fuel rest
    else c :: dottedEdgesFuel fuel rest

/-- One line of the ampersand-shorthand expansion: split on `&`, strip
the parts, keep the truthy ones, and re-indent — only when the line
contains `&` and one of `[`, `(`, `\x7b`. -/
def expandAmpLine (l : List Char) : List (List Char) :=
  if l.contains '&' && l.any (fun c => c = '[' || c = '(' || c = Char.ofNat 123) then
    let indent := l.takeWhile isPyWs
    let parts := ((splitOnChar '&' l).map pyStripList).filter (fun p => !p.isEmpty)
    if decide (1 < parts.length) then parts.map (fun p => indent ++ p)
    else [l]
  else [l]

/-- The ampersand expansion over all lines. -/
def expandAmps : List (List Char) → List (List Char)
  | [] => []
  | l :: rest => expandAmpLine l ++ expandAmps rest

/-- `label.replace(chr(34), chr(92) + chr(34))` of `_quote_square_label`. -/
def escapeQuotes : List Char → List Char
  | [] => []
  | c :: rest =>
    if c = '"' then '\\' :: '"' :: escapeQuotes rest else c :: escapeQuotes rest

/-- `_quote_square_label` applied to one match `nid[label]`. -/
def quoteSquareLabel (nid : List Char) (label : List Char) : List Char :=
  let labelS := pyStripList label
  let unchanged := nid ++ '[' :: label ++ [']']
  if labelS.headD ' ' = '"' && labelS.getLastD ' ' = '"' then unchanged
  else if labelS.headD ' ' = '(' || labelS.headD ' ' = Char.ofNat 123 ||
      labelS.headD ' ' = '<' then unchanged
  else if labelS.any (fun c =>
      isPyWs c || c = '/' || c = ':' || c = ',' || c = '(' || c = ')' || c = '-') then
    nid ++ '[' :: '"' :: (escapeQuotes labelS ++ ['"', ']'])
  else unchanged

/-- `re.sub(r"\b([A-Za-z][\w-]*)\[(?!\()([^\]\n]+)\]", _quote_square_label, text)`:
the global scan; the Boolean argument tracks whether the previous
character was a word character, for the `\b` anchor. -/
def quoteSquaresFuel : Nat → Bool → List Char → List Char
  | 0, _, cs => cs
  | _ + 1, _, [] => []
  | fuel + 1, prevWord, c :: rest =>
    if !prevWord && c.isAlpha then
      let idTail := rest.takeWhile (fun d => isWordChar d || d = '-')
      match rest.drop idTail.length with
      | '[' :: rest3 =>
        if rest3.headD ' ' = '(' then c :: quoteSquaresFuel fuel true rest
        else
          let label := rest3.takeWhile (fun d => d ≠ ']' && d ≠ '\n')
          match rest3.drop label.length with
          | ']' :: rest5 =>
            if label.isEmpty then c :: quoteSquaresFuel fuel true rest
            else quoteSquareLabel (c :: idTail) label ++ quoteSquaresFuel fuel false rest5
          | _ => c :: quoteSquaresFuel fuel true rest
      | _ => c :: quoteSquaresFuel fuel true rest
    else c :: quoteSquaresFuel fuel (isWordChar c) rest

/-- `g.replace("->", arrow)`: the first label rewrite of the pipe-label
substitution. -/
def arrowRight : List Char → List Char
  | '-' :: '>' :: rest => '→' :: arrowRight rest
  | c :: rest => c :: arrowRight rest
  | [] => []

/-- `g.replace("<-", arrow)`: the second label rewrite. -/
def arrowLeft : List Char → List Char
  | '<' :: '-' :: rest => '←' :: arrowLeft rest
  | c :: rest => c :: arrowLeft rest
  | [] => []

/-- `re.sub(r"\|([^|\n]*)\|", …, text)`: rewrite the arrows inside each
pipe-delimited label, scanning left to right. -/
def pipeArrowsFuel : Nat → List Char → List Char
  | 0, cs => cs
  | _ + 1, [] => []
  | fuel + 1, c :: rest =>
    if c = '|' then
      let content := rest.takeWhile (fun d => d ≠ '|' && d ≠ '\n')
      match rest.drop content.length with
      | '|' :: rest2 =>
        '|' :: (arrowLeft (arrowRight content) ++ '|' :: pipeArrowsFuel fuel rest2)
      | _ => c :: pipeArrowsFuel fuel rest
    else c :: pipeArrowsFuel fuel rest

/-- `\r\n → \n` then `\r → \n`. -/
def normNewlines : List Char → List Char
  | [] => []
  | '\r' :: '\n' :: rest => '\n' :: normNewlines rest
  | '\r' :: rest => '\n' :: normNewlines rest
  | c :: rest => c :: normNewlines rest

/-- `ArchitectureAgent._normalize_mermaid`
(architecture_agent.py:13-76), stage by stage in source order. -/
def normalizeMermaid (code : String) : String :=
  let text := pyStripList code.data
  if text.isEmpty then "flowchart TD\n  API[\"API\"]"
  else
    let text := stripFenceList text
    let text := text.dropWhile isZeroWidth
    let text := normNewlines text
    let ls := (splitOnChar '\n' text).map (stripTrailing isPyWs)
    let ls := dropMermaidHeadLine ls
    let text := pyStripList (joinLinesChar ls)
    let text :=
      match matchFlowchartLR text with
      | some q => "flowchart TD".toList ++ q
      | none => text
    let text :=
      if hasDiagramHeader text then text else "flowchart TD\n".toList ++ text
    let text :=
      match matchGraphTD text with
      | some q => "flowchart TD".toList ++ q
      | none => text
    let text :=
      pyStripList (joinLinesChar
        ((splitOnChar '\n' text).filter (fun l => !isNoteLine l)))
    let text := dottedEdgesFuel text.length text
    let text := joinLinesChar (expandAmps (splitOnChar '\n' text))
    let text := quoteSquaresFuel text.length false text
    let text := pipeArrowsFuel text.length text
    ⟨pyStripList text⟩

/-- C4. The mermaid normalizer is not idempotent: on
`"A[1] & note right of B"` the ampersand expansion runs after the
fragile-note filter and splits out a `note right of B` line, which a
second normalization pass then deletes, so
`normalize (normalize x) ≠ normalize x`. -/
theorem C4_mermaid_not_idempotent :
    normalizeMermaid "A[1] & note right of B" =
      "flowchart TD\nA[1]\nnote right of B" ∧
    normalizeMermaid (normalizeMermaid "A[1] & note right of B") =
      "flowchart TD\nA[1]" ∧
    normalizeMermaid (normalizeMermaid "A[1] & note right of B") ≠
      normalizeMermaid "A[1] & note right of B" := by
  refine ⟨by decide, by decide, ?_⟩
  decide


/-! ## C5: `_normalize_sandbox_source` (`app/api/routes/sandbox.py`,
lines 955-1371) and `_rewrite_datetime_type_name_collisions` (lines
784-872)

The normalizer is embedded stage by stage in source order.  Regex
searches are embedded as structural scanners (with explicit fuel bounded
by the text length where a scan position advances non-structurally); the
`tokenize` stream of the datetime-collision rewriter is modelled as the
maximal word-character runs outside string literals and comments, with
`untokenize` as in-place text replacement — faithful for sources where
renames only lengthen tokens, which is how `untokenize` behaves on such
streams. -/

/-- Consume a literal (case-sensitive) from the head of `cs`. -/
def dropLit (w cs : List Char) : Option (List Char) :=
  if w.isPrefixOf cs then some (cs.drop w.length) else none

/-- Python `pat in s` (substring containment). -/
def containsSub (pat : List Char) : List Char → Bool
  | [] => pat.isEmpty
  | c :: rest => pat.isPrefixOf (c :: rest) || containsSub pat rest

/-- Python `s.replace(old, new, 1)` for a non-empty `old`. -/
def replaceFirst (old new : List Char) : List Char → List Char
  | [] => []
  | c :: rest =>
    if old.isPrefixOf (c :: rest) then new ++ (c :: rest).drop old.length
    else c :: replaceFirst old new rest

/-- Python `s.replace(old, new)` for a non-empty `old`, fuelled. -/
def replaceAllFuel (old new : List Char) : Nat → List Char → List Char
  | 0, cs => cs
  | _ + 1, [] => []
  | fuel + 1, c :: rest =>
    if old.isPrefixOf (c :: rest) then
      new ++ replaceAllFuel old new fuel ((c :: rest).drop old.length)
    else c :: replaceAllFuel old new fuel rest

/-- Python `s.replace(old, new)`. -/
def replaceAll (old new cs : List Char) : List Char :=
  replaceAllFuel old new cs.length cs

/-- `s.count(c)` for a single character. -/
def countChar (c : Char) (l : List Char) : Nat :=
  (l.filter (· = c)).length

/-- A `str.splitlines()` line break (the ASCII ones plus NEL and the
Unicode line/paragraph separators). -/
def isLineBreak (c : Char) : Bool :=
  c = '\n' || c = '\r' || c = '\x0b' || c = '\x0c' ||
  c = '\x1c' || c = '\x1d' || c = '\x1e' ||
  c = Char.ofNat 133 || c = Char.ofNat 8232 || c = Char.ofNat 8233

/-- Python `str.splitlines()` (no trailing empty line for a trailing
terminator). -/
def splitLinesPy : List Char → List (List Char)
  | [] => []
  | '\r' :: '\n' :: rest => [] :: splitLinesPy rest
  | c :: rest =>
    if isLineBreak c then [] :: splitLinesPy rest
    else
      match splitLinesPy rest with
      | [] => [[c]]
      | h :: t => (c :: h) :: t

/-- The suffixes of `cs` that start a `(?m)^` line (position `0` and the
position after every newline). -/
def lineStartsAux : List Char → List (List Char)
  | [] => []
  | c :: rest => (if c = '\n' then [rest] else []) ++ lineStartsAux rest

def lineStarts (cs : List Char) : List (List Char) :=
  cs :: lineStartsAux cs

/-- `", ".join(...)`. -/
def joinCommaSp : List (List Char) → List Char
  | [] => []
  | [x] => x
  | x :: rest => x ++ ',' :: ' ' :: joinCommaSp rest

/-- `list(dict.fromkeys(...))`: deduplicate keeping first occurrences. -/
def dedupKeep : List (List Char) → List (List Char)
  | [] => []
  | x :: rest => x :: (dedupKeep rest).filter (· ≠ x)

/-- Split at the first occurrence of a non-empty separator. -/
def splitFirstOn (sep : List Char) : List Char → Option (List Char × List Char)
  | [] => if sep.isEmpty then some ([], []) else none
  | c :: rest =>
    if sep.isPrefixOf (c :: rest) then some ([], (c :: rest).drop sep.length)
    else (splitFirstOn sep rest).map (fun pr => (c :: pr.1, pr.2))

/-- `re.sub(r"@root_validator\s*$", "@root_validator(skip_on_failure=True)",
…, flags=re.MULTILINE)`: the greedy `\s*` backs off to the last newline of
the whitespace run (or consumes it all at end of text), and the matched
span is replaced. -/
def rootValidatorFuel : Nat → List Char → List Char
  | 0, cs => cs
  | _ + 1, [] => []
  | fuel + 1, c :: rest =>
    if "@root_validator".toList.isPrefixOf (c :: rest) then
      let r := (c :: rest).drop 15
      let w := r.takeWhile isPyWs
      let rem := r.drop w.length
      if rem.isEmpty then
        "@root_validator(skip_on_failure=True)".toList ++ rootValidatorFuel fuel rem
      else if w.contains '\n' then
        let trail := (w.reverse.takeWhile (· ≠ '\n')).length
        "@root_validator(skip_on_failure=True)".toList ++
          rootValidatorFuel fuel (r.drop (w.length - trail - 1))
      else c :: rootValidatorFuel fuel rest
    else c :: rootValidatorFuel fuel rest

def rootValidatorSub (cs : List Char) : List Char :=
  rootValidatorFuel cs.length cs

/-- `re.match(r"^\s*from\s+datetime\s+import\s+(.+)$", line)`: the
captured group (with the pedantic backtracking case where everything
after `import` is whitespace). -/
def datetimeImportGroup (l : List Char) : Option (List Char) :=
  match dropLit "from".toList (l.dropWhile isPyWs) with
  | none => none
  | some r =>
    if (r.takeWhile isPyWs).isEmpty then none
    else
      match dropLit "datetime".toList (r.dropWhile isPyWs) with
      | none => none
      | some r =>
        if (r.takeWhile isPyWs).isEmpty then none
        else
          match dropLit "import".toList (r.dropWhile isPyWs) with
          | none => none
          | some r =>
            let w := r.takeWhile isPyWs
            let rem := r.drop w.length
            if w.isEmpty then none
            else if !rem.isEmpty then some rem
            else if 2 ≤ w.length then some [w.getLastD ' ']
            else none

/-- The `date`/`datetime`/`time` names imported by one
`from datetime import …` line (aliases resolved to the original name). -/
def namesOfImportLine (l : List Char) : List (List Char) :=
  match datetimeImportGroup l with
  | none => []
  | some g =>
    (((splitOnChar ',' g).map pyStripList).filter (fun s => !s.isEmpty)).filterMap
      (fun seg =>
        let orig :=
          match splitFirstOn " as ".toList seg with
          | some pr => pyStripList pr.1
          | none => seg
        if orig = "date".toList || orig = "datetime".toList || orig = "time".toList then
          some orig
        else none)

def collectDatetimeNames : List (List Char) → List (List Char)
  | [] => []
  | l :: rest => namesOfImportLine l ++ collectDatetimeNames rest

/-- `re.search(rf"(?m)^\s*{name}\s*:\s*", content)`: some line start is
followed by whitespace, the name, whitespace and a colon. -/
def collidesIn (name : List Char) (cs : List Char) : Bool :=
  (lineStarts cs).any (fun l =>
    match dropLit name (l.dropWhile isPyWs) with
    | some r => (r.dropWhile isPyWs).headD ' ' = ':'
    | none => false)

/-- Rewrite one `from datetime import …` line, aliasing each collision
name to `name_type` (the second loop of the datetime rewriter). -/
def rewriteImportLine (collisions : List (List Char)) (l : List Char) : List Char :=
  match datetimeImportGroup l with
  | none => l
  | some g =>
    "from datetime import ".toList ++ joinCommaSp
      ((((splitOnChar ',' g).map pyStripList).filter (fun s => !s.isEmpty)).map
        (fun seg =>
          match splitFirstOn " as ".toList seg with
          | some pr =>
            let orig := pyStripList pr.1
            let al := pyStripList pr.2
            if collisions.contains orig then
              orig ++ " as ".toList ++ orig ++ "_type".toList
            else orig ++ " as ".toList ++ al
          | none =>
            if collisions.contains seg then
              seg ++ " as ".toList ++ seg ++ "_type".toList
            else seg))

/-- Consume a single-quoted string literal body after its opening quote
(to the closing quote, an unterminated newline, or end of text). -/
def scanSingleQ (q : Char) : List Char → List Char × List Char
  | [] => ([], [])
  | c :: rest =>
    if c = q then ([q], rest)
    else if c = '\\' then
      match rest with
      | [] => (['\\'], [])
      | d :: rest2 =>
        let (a, b) := scanSingleQ q rest2
        ('\\' :: d :: a, b)
    else if c = '\n' then ([], c :: rest)
    else
      let (a, b) := scanSingleQ q rest
      (c :: a, b)

/-- Consume a triple-quoted string literal body after its opening
quotes. -/
def scanTripleQ (q : Char) : List Char → List Char × List Char
  | [] => ([], [])
  | c :: rest =>
    if c = q && rest.take 2 = [q, q] then ([q, q, q], rest.drop 2)
    else if c = '\\' then
      match rest with
      | [] => (['\\'], [])
      | d :: rest2 =>
        let (a, b) := scanTripleQ q rest2
        ('\\' :: d :: a, b)
    else
      let (a, b) := scanTripleQ q rest
      (c :: a, b)

/-- Whether the next significant token (skipping whitespace, newlines
and comments) is exactly `:` — the lookahead of the token renamer. -/
def nextSigIsColonFuel : Nat → List Char → Bool
  | 0, _ => false
  | _ + 1, [] => false
  | fuel + 1, c :: rest =>
    if isPyWs c then nextSigIsColonFuel fuel rest
    else if c = '#' then nextSigIsColonFuel fuel (rest.dropWhile (· ≠ '\n'))
    else c = ':' && rest.headD ' ' ≠ '='

/-- The token-rename stage of the datetime rewriter: every NAME token
equal to a collision name is renamed to `name_type`, except on the
datetime-import lines and except when the next significant token is a
colon (an annotation of that very name). -/
def tokenRenameFuel (collisions : List (List Char)) (impFlags : List Bool) :
    Nat → Nat → Bool → List Char → List Char
  | 0, _, _, cs => cs
  | _ + 1, _, _, [] => []
  | fuel + 1, ln, prevWord, c :: rest =>
    if c = '\n' then '\n' :: tokenRenameFuel collisions impFlags fuel (ln + 1) false rest
    else if c = '#' then
      let com := rest.takeWhile (· ≠ '\n')
      c :: com ++ tokenRenameFuel collisions impFlags fuel ln false (rest.drop com.length)
    else if c = '"' || c = Char.ofNat 39 then
      if rest.take 2 = [c, c] then
        let (body, after) := scanTripleQ c (rest.drop 2)
        c :: c :: c :: body ++
          tokenRenameFuel collisions impFlags fuel (ln + countChar '\n' body) false after
      else
        let (body, after) := scanSingleQ c rest
        c :: body ++ tokenRenameFuel collisions impFlags fuel ln false after
    else if !prevWord && isWordChar c then
      let run := (c :: rest).takeWhile isWordChar
      let after := (c :: rest).drop run.length
      let keep := !(collisions.contains run) || impFlags.getD ln false ||
        nextSigIsColonFuel after.length after
      (if keep then run else run ++ "_type".toList) ++
        tokenRenameFuel collisions impFlags fuel ln true after
    else c :: tokenRenameFuel collisions impFlags fuel ln (isWordChar c) rest

/-- `_rewrite_datetime_type_name_collisions` (sandbox.py:784-872). -/
def rewriteDatetimeCollisions (cs : List Char) : List Char :=
  let lines := splitLinesPy cs
  let importedNames := collectDatetimeNames lines
  if importedNames.isEmpty then cs
  else
    let collisions := importedNames.filter (fun n => collidesIn n cs)
    if collisions.isEmpty then cs
    else
      let impFlags := lines.map (fun l => (datetimeImportGroup l).isSome)
      let src2 := joinLinesChar (lines.map (rewriteImportLine collisions))
      tokenRenameFuel collisions impFlags src2.length 0 false src2

/-- One attempted match of `\bforeign_key\s*=\s*([^,]+),\s*` at the
current position: the stripped-later group and the remainder after the
trailing whitespace. -/
def matchFKAt (cs : List Char) : Option (List Char × List Char) :=
  match dropLit "foreign_key".toList cs with
  | none => none
  | some r =>
    match r.dropWhile isPyWs with
    | '=' :: r3 =>
      let pre := r3.takeWhile (· ≠ ',')
      match r3.drop pre.length with
      | ',' :: r5 =>
        let core := pre.dropWhile isPyWs
        let grp := if core.isEmpty then
            (if pre.isEmpty then [] else [pre.getLastD ' ']) else core
        if grp.isEmpty then none
        else some (grp, r5.dropWhile isPyWs)
      | _ => none
    | _ => none

/-- `re.search` scan for the foreign-key pattern: the text before the
match, the group, and the text after the match. -/
def fkScanFuel : Nat → Bool → List Char → Option (List Char × List Char × List Char)
  | 0, _, _ => none
  | _ + 1, _, [] => none
  | fuel + 1, prevWord, c :: rest =>
    if !prevWord then
      match matchFKAt (c :: rest) with
      | some (grp, after) => some ([], grp, after)
      | none => (fkScanFuel fuel (isWordChar c) rest).map
          (fun t => (c :: t.1, t.2.1, t.2.2))
    else (fkScanFuel fuel (isWordChar c) rest).map
      (fun t => (c :: t.1, t.2.1, t.2.2))

/-- One attempted match of `\b<flag>\s*=\s*(True|False),\s*`: whether the
group is `True`, and the remainder after the match. -/
def matchFlagAt (flag : List Char) (cs : List Char) : Option (Bool × List Char) :=
  match dropLit flag cs with
  | none => none
  | some r =>
    match r.dropWhile isPyWs with
    | '=' :: r3 =>
      let r4 := r3.dropWhile isPyWs
      match dropLit "True".toList r4 with
      | some (',' :: r6) => some (true, r6.dropWhile isPyWs)
      | some _ => none
      | none =>
        match dropLit "False".toList r4 with
        | some (',' :: r6) => some (false, r6.dropWhile isPyWs)
        | _ => none
    | _ => none

/-- `re.search` scan for a flag pattern. -/
def flagScanFuel (flag : List Char) :
    Nat → Bool → List Char → Option (List Char × Bool × List Char)
  | 0, _, _ => none
  | _ + 1, _, [] => none
  | fuel + 1, prevWord, c :: rest =>
    if !prevWord then
      match matchFlagAt flag (c :: rest) with
      | some (b, after) => some ([], b, after)
      | none => (flagScanFuel flag fuel (isWordChar c) rest).map
          (fun t => (c :: t.1, t.2.1, t.2.2))
    else (flagScanFuel flag fuel (isWordChar c) rest).map
      (fun t => (c :: t.1, t.2.1, t.2.2))

/-- `re.sub(r"\bnullable\s*=\s*(True|False),\s*", "", …)`: delete every
match. -/
def nullableSubFuel : Nat → Bool → List Char → List Char
  | 0, _, cs => cs
  | _ + 1, _, [] => []
  | fuel + 1, prevWord, c :: rest =>
    if !prevWord then
      match matchFlagAt "nullable".toList (c :: rest) with
      | some (_, after) => nullableSubFuel fuel false after
      | none => c :: nullableSubFuel fuel (isWordChar c) rest
    else c :: nullableSubFuel fuel (isWordChar c) rest

/-- The closing-parenthesis search of `_inject_sa_column_args`: the index
where the depth (starting at `depth`) first reaches zero at a `)`. -/
def findCloseParen : List Char → Int → Nat → Option Nat
  | [], _, _ => none
  | c :: rest, depth, i =>
    if c = '(' then findCloseParen rest (depth + 1) (i + 1)
    else if c = ')' then
      if depth = 1 then some i else findCloseParen rest (depth - 1) (i + 1)
    else findCloseParen rest depth (i + 1)

/-- The first top-level comma of the `Column(…)` argument list. -/
def findTopComma : List Char → Int → Nat → Option Nat
  | [], _, _ => none
  | c :: rest, depth, i =>
    if c = '(' then findTopComma rest (depth + 1) (i + 1)
    else if c = ')' then findTopComma rest (depth - 1) (i + 1)
    else if c = ',' && depth = 0 then some i
    else findTopComma rest depth (i + 1)

/-- `_inject_sa_column_args` (sandbox.py:907-954). -/
def injectSaColumnArgs (line : List Char)
    (fks fls : List (List Char)) : List Char :=
  match splitFirstOn "sa_column=Column(".toList line with
  | none => line
  | some (pre, post) =>
    match findCloseParen post 1 0 with
    | none => line
    | some iEnd =>
      let inner := post.take iEnd
      let inner :=
        if fks.isEmpty then inner
        else
          let seg := joinCommaSp fks
          match findTopComma inner 0 0 with
          | none => inner ++ ',' :: ' ' :: seg
          | some k =>
            inner.take (k + 1) ++ ' ' :: (seg ++ ',' :: ' ' ::
              (inner.drop (k + 1)).dropWhile isPyWs)
      let inner :=
        if fls.isEmpty then inner else inner ++ ',' :: ' ' :: joinCommaSp fls
      pre ++ "sa_column=Column(".toList ++ inner ++ post.drop iEnd

/-- `_rewrite_inline_field_sa_column_conflicts` (sandbox.py:875-905). -/
def rewriteInlineFieldConflicts (line : List Char) : List Char × Bool :=
  if !containsSub "Field(".toList line ||
      !containsSub "sa_column=Column(".toList line then (line, false)
  else
    let (rw, fks, req) :=
      match fkScanFuel line.length false line with
      | some (pre, grp, post) =>
        (pre ++ post, ["ForeignKey(".toList ++ pyStripList grp ++ [')']], true)
      | none => (line, [], false)
    let step := fun (st : List Char × List (List Char)) (flag : List Char) =>
      match flagScanFuel flag st.1.length false st.1 with
      | none => st
      | some (pre, isT, post) =>
        (pre ++ post,
         st.2 ++ (if isT then [flag ++ "=True".toList] else []))
    let (rw, fls) := step (step (step (rw, []) "primary_key".toList)
      "index".toList) "unique".toList
    let rw := nullableSubFuel rw.length false rw
    let rw :=
      if !fks.isEmpty || !fls.isEmpty then injectSaColumnArgs rw fks fls else rw
    (rw, req)

/-- The inner `while` of the multi-line `Field(` block collection:
accumulate lines while the parenthesis balance stays positive. -/
def takeBlock : Int → List (List Char) → List (List Char) × List (List Char)
  | _, [] => ([], [])
  | bal, l :: rest =>
    let bal2 := bal + (countChar '(' l : Int) - countChar ')' l
    if 0 < bal2 then
      let (b, r) := takeBlock bal2 rest
      (l :: b, r)
    else ([l], rest)

/-- The per-line rewriting of one collected `Field(` block: returns the
kept lines, the collected `ForeignKey(…)` arguments, the collected flag
strings, and whether a foreign key was consumed. -/
def processBlockLines (hasSa : Bool) :
    List (List Char) →
      List (List Char) × List (List Char) × List (List Char) × Bool
  | [] => ([], [], [], false)
  | l :: rest =>
    let (rb, fks, fls, req) := processBlockLines hasSa rest
    let s := pyStripList l
    if "pattern=".toList.isPrefixOf s then
      (replaceFirst "pattern=".toList "regex=".toList l :: rb, fks, fls, req)
    else if hasSa && "nullable=".toList.isPrefixOf s then (rb, fks, fls, req)
    else if hasSa && "primary_key=".toList.isPrefixOf s then
      (rb, fks,
       (if containsSub "true".toList (s.map Char.toLower) then
          ["primary_key=True".toList] else []) ++ fls, req)
    else if hasSa && "index=".toList.isPrefixOf s then
      (rb, fks,
       (if containsSub "true".toList (s.map Char.toLower) then
          ["index=True".toList] else []) ++ fls, req)
    else if hasSa && "unique=".toList.isPrefixOf s then
      (rb, fks,
       (if containsSub "true".toList (s.map Char.toLower) then
          ["unique=True".toList] else []) ++ fls, req)
    else if hasSa && "foreign_key=".toList.isPrefixOf s then
      let v := pyStripList (stripTrailing (· = ',') (s.drop 12))
      if v.isEmpty then (rb, fks, fls, req)
      else (rb, ("ForeignKey(".toList ++ v ++ [')']) :: fks, fls, true)
    else (l :: rb, fks, fls, req)

/-- Inject the collected arguments into the first block line holding
`sa_column` and `Column(`. -/
def injectFirstColumn (fks fls : List (List Char)) :
    List (List Char) → List (List Char)
  | [] => []
  | l :: rest =>
    if containsSub "sa_column".toList l && containsSub "Column(".toList l then
      injectSaColumnArgs l fks fls :: rest
    else l :: injectFirstColumn fks fls rest

/-- The `while idx < len(lines)` loop of the `.py` branch
(sandbox.py:963-1040): returns the rewritten lines and the accumulated
`requires_sqlalchemy_foreign_key` flag. -/
def fieldBlocksFuel : Nat → List (List Char) → List (List Char) × Bool
  | 0, ls => (ls, false)
  | _ + 1, [] => ([], false)
  | fuel + 1, l :: rest =>
    if !containsSub "Field(".toList l then
      let (r, b) := fieldBlocksFuel fuel rest
      (l :: r, b)
    else
      let bal : Int := (countChar '(' l : Int) - countChar ')' l
      if bal ≤ 0 then
        let (rl, lreq) := rewriteInlineFieldConflicts l
        let rl :=
          if containsSub "pattern=".toList rl then
            replaceFirst "pattern=".toList "regex=".toList rl
          else rl
        let (r, b) := fieldBlocksFuel fuel rest
        (rl :: r, lreq || b)
      else
        let (tl, rest2) := takeBlock bal rest
        let block := l :: tl
        let hasSa := block.any (fun bl => containsSub "sa_column=".toList bl)
        let (rb, fks, fls, breq) := processBlockLines hasSa block
        let rb :=
          if hasSa && (!fks.isEmpty || !fls.isEmpty) then
            injectFirstColumn fks (dedupKeep fls) rb
          else rb
        let (r, b) := fieldBlocksFuel fuel rest2
        (rb ++ r, breq || b)

/-- `re.match` part of `(?m)^from\s+sqlalchemy\s+import\s+(.+)$` on one
line (no leading whitespace allowed). -/
def sqlalchemyImportGroup (l : List Char) : Option (List Char) :=
  match dropLit "from".toList l with
  | none => none
  | some r =>
    if (r.takeWhile isPyWs).isEmpty then none
    else
      match dropLit "sqlalchemy".toList (r.dropWhile isPyWs) with
      | none => none
      | some r =>
        if (r.takeWhile isPyWs).isEmpty then none
        else
          match dropLit "import".toList (r.dropWhile isPyWs) with
          | none => none
          | some r =>
            let w := r.takeWhile isPyWs
            let rem := r.drop w.length
            if w.isEmpty then none
            else if !rem.isEmpty then some rem
            else if 2 ≤ w.length then some [w.getLastD ' ']
            else none

/-- The `requires_sqlalchemy_foreign_key` import fixup
(sandbox.py:1041-1053): extend the first `from sqlalchemy import` line
with `ForeignKey`, or prepend a fresh import. -/
def addForeignKeyImport (cs : List Char) : List Char :=
  let rec go : List (List Char) → Option (List (List Char))
    | [] => none
    | l :: rest =>
      match sqlalchemyImportGroup l with
      | some g =>
        let syms := ((splitOnChar ',' g).map pyStripList).filter (fun s => !s.isEmpty)
        if syms.contains "ForeignKey".toList then some (l :: rest)
        else some (("from sqlalchemy import ".toList ++
          joinCommaSp (syms ++ ["ForeignKey".toList])) :: rest)
      | none => (go rest).map (fun r => l :: r)
  match go (splitOnChar '\n' cs) with
  | some ls => joinLinesChar ls
  | none => "from sqlalchemy import ForeignKey\n".toList ++ cs

/-- The whole `.py` branch of the normalizer (sandbox.py:963-1059
upper part): the Field-block rewriting plus the import fixup. -/
def pyFieldStage (cs : List Char) : List Char :=
  let lines := splitLinesPy cs
  let (rl, req) := fieldBlocksFuel (lines.length + 1) lines
  let n := joinLinesChar rl
  if req then addForeignKeyImport n else n

/-- `(?m)^<name>\s*=` as a line-start predicate. -/
def anyAssign (name : List Char) (cs : List Char) : Bool :=
  (lineStarts cs).any (fun l =>
    match dropLit name l with
    | some r => (r.dropWhile isPyWs).headD ' ' = '='
    | none => false)

/-- `(?m)^router_list\s*=\s*\[`. -/
def hasRouterListLine (cs : List Char) : Bool :=
  (lineStarts cs).any (fun l =>
    match dropLit "router_list".toList l with
    | some r =>
      match (r.dropWhile isPyWs) with
      | '=' :: r2 => (r2.dropWhile isPyWs).headD ' ' = '['
      | _ => false
    | none => false)

/-- `(?m)^def\s+get_router\s*\(`. -/
def hasGetRouterDef (cs : List Char) : Bool :=
  (lineStarts cs).any (fun l =>
    match dropLit "def".toList l with
    | some r =>
      if (r.takeWhile isPyWs).isEmpty then false
      else
        match dropLit "get_router".toList (r.dropWhile isPyWs) with
        | some r2 => (r2.dropWhile isPyWs).headD ' ' = '('
        | none => false
    | none => false)


/-- The `create_access_token` compatibility wrapper appended in the `auth.py` branch (sandbox.py:1131-1136). -/
def authTokenWrapperText : String :=
  "def create_access_token(subject=None, expires_delta=None):\n    if isinstance(subject, dict):\n        subject = subject.get(\x27sub\x27)\n    return _sandbox_create_access_token_impl(subject=str(subject), expires_delta=expires_delta)"

/-- The compatibility-wrapper block appended in the `services.py` branch (sandbox.py:1152-1238). -/
def servicesCompatText : String :=
  "\n\n\n# Compatibility wrappers for generated route modules that target an earlier service surface.\n_calculator_service = CalculatorService()\n\n\ndef evaluate_calculation(*, db: Session, request: Any, store: bool = True):\n    payload = request.model_dump() if hasattr(request, \"model_dump\") else request.dict()\n    return _calculator_service.evaluate(\n        expression=payload.get(\"expression\"),\n        operator=payload.get(\"operator\"),\n        operands=payload.get(\"operands\"),\n        store=store,\n        session=db,\n    )\n\n\ndef list_calculations(\n    *,\n    db: Session | None = None,\n    filters: Optional[Dict[str, Any]] = None,\n    session: Optional[Session] = None,\n    limit: int = 100,\n    offset: int = 0,\n    operator: Optional[str] = None,\n    from_dt: Optional[datetime] = None,\n    to_dt: Optional[datetime] = None,\n):\n    active_session = db or session\n    if active_session is None:\n        raise PersistenceError(\"No database session provided\")\n\n    filter_values = filters or \x7b\x7d\n    return _sandbox_list_calculations_impl(\n        session=active_session,\n        limit=filter_values.get(\"limit\", limit),\n        offset=filter_values.get(\"offset\", offset),\n        operator=filter_values.get(\"operator\", operator),\n        from_dt=filter_values.get(\"from\", from_dt),\n        to_dt=filter_values.get(\"to\", to_dt),\n    )\n\n\ndef get_calculation(*, db: Session, calculation_id: Union[str, uuid.UUID]):\n    return get_calculation_by_id(session=db, calculation_id=calculation_id)\n\n\ndef delete_calculation(*, db: Session, calculation_id: Union[str, uuid.UUID]) -> bool:\n    summary = delete_calculation_by_id(session=db, calculation_id=calculation_id)\n    return bool(summary.get(\"deleted\"))\n\n\ndef clear_calculations(*, db: Session) -> int:\n    summary = clear_all_calculations(session=db)\n    return int(summary.get(\"deleted\", 0))\n\n\ndef get_operators() -> Dict[str, Any]:\n    return \x7b\n        \"operators\": [\n            \x7b\"symbol\": \"+\", \"arity\": \"binary\", \"description\": \"Addition\"\x7d,\n            \x7b\"symbol\": \"-\", \"arity\": \"binary\", \"description\": \"Subtraction\"\x7d,\n            \x7b\"symbol\": \"*\", \"arity\": \"binary\", \"description\": \"Multiplication\"\x7d,\n            \x7b\"symbol\": \"/\", \"arity\": \"binary\", \"description\": \"Division\"\x7d,\n            \x7b\"symbol\": \"%\", \"arity\": \"binary\", \"description\": \"Modulo\"\x7d,\n            \x7b\"symbol\": \"^\", \"arity\": \"binary\", \"description\": \"Exponentiation\"\x7d,\n        ]\n    \x7d\n\n\ndef health_check(*, db: Session) -> bool:\n    try:\n        db.exec(select(Calculation).limit(1)).all()\n        return True\n    except Exception as exc:\n        raise PersistenceError(f\"Health check failed: \x7bexc\x7d\") from exc\n"

/-- The wrapper block appended in the `repository.py` branch (sandbox.py:1317-1369). -/
def repoCompatText : String :=
  "\n\n\ndef get_todo(session: Session, todo_id: int) -> Optional[models.Todo]:\n    return get_todo_by_id(session, todo_id)\n\n\ndef list_todos(\n    session: Session,\n    *,\n    completed: Optional[bool] = None,\n    due_before: Optional[datetime] = None,\n    due_after: Optional[datetime] = None,\n    due_date_before: Optional[datetime] = None,\n    due_date_after: Optional[datetime] = None,\n    limit: int = 100,\n    offset: int = 0,\n) -> List[models.Todo]:\n    return _sandbox_repo_list_todos_impl(\n        session,\n        completed=completed,\n        due_date_before=due_date_before if due_date_before is not None else due_before,\n        due_date_after=due_date_after if due_date_after is not None else due_after,\n        limit=limit,\n        offset=offset,\n    )\n\n\ndef update_todo(session: Session, *args) -> Optional[models.Todo]:\n    if len(args) == 1:\n        new_todo = args[0]\n        todo_id = getattr(new_todo, \"id\", None)\n        if todo_id is None:\n            raise ValueError(\"todo_id is required to update a todo\")\n        return _sandbox_repo_update_todo_impl(session, todo_id, new_todo)\n    if len(args) == 2:\n        todo_id, new_todo = args\n        return _sandbox_repo_update_todo_impl(session, todo_id, new_todo)\n    raise TypeError(\"update_todo expected (session, new_todo) or (session, todo_id, new_todo)\")\n"

/-- The module-level engine exposure appended in the `database.py` branch (sandbox.py:1055-1059). -/
def dbEngineText : String :=
  "\n\n# Expose a module-level engine for generated apps that import it directly.\n"

/-- The `CalculationRequest` alias comment header appended in the `schemas.py` branch (sandbox.py:1069-1073). -/
def schemasAliasText : String :=
  "\n\n# Backwards-compatible alias used by some generated route modules.\n"

/-- The todo-service wrapper block appended in the `service.py` branch (sandbox.py:1256-1311). -/
def serviceTodoText : String :=
  "\n\n\nPreconditionFailed = PreconditionFailedError\n\n\ndef create_todo(*, db=None, session=None, todo_in: schemas.TodoCreate):\n    return _sandbox_create_todo_impl(db=session or db, todo_in=todo_in)\n\n\ndef get_todo(*, db=None, session=None, todo_id: int):\n    return _sandbox_get_todo_impl(db=session or db, todo_id=todo_id)\n\n\ndef list_todos(\n    *,\n    db=None,\n    session=None,\n    completed: Optional[bool] = None,\n    due_date_before: Optional[datetime.datetime] = None,\n    due_date_after: Optional[datetime.datetime] = None,\n    due_before: Optional[datetime.datetime] = None,\n    due_after: Optional[datetime.datetime] = None,\n    limit: Optional[int] = 100,\n    offset: Optional[int] = 0,\n):\n    return _sandbox_list_todos_impl(\n        db=session or db,\n        completed=completed,\n        due_before=due_date_before if due_date_before is not None else due_before,\n        due_after=due_date_after if due_date_after is not None else due_after,\n        limit=limit,\n        offset=offset,\n    )\n\n\ndef update_todo(*, db=None, session=None, todo_id: int, todo_in: schemas.TodoUpdate, if_unmodified_since: Optional[datetime.datetime] = None):\n    return _sandbox_replace_todo_impl(\n        db=session or db,\n        todo_id=todo_id,\n        todo_in=todo_in,\n        if_unmodified_since=if_unmodified_since,\n    )\n\n\ndef replace_todo(*, db=None, session=None, todo_id: int, todo_in: schemas.TodoUpdate, if_unmodified_since: Optional[datetime.datetime] = None):\n    return _sandbox_replace_todo_impl(\n        db=session or db,\n        todo_id=todo_id,\n        todo_in=todo_in,\n        if_unmodified_since=if_unmodified_since,\n    )\n\n\ndef patch_todo(*, db=None, session=None, todo_id: int, todo_in: schemas.TodoPatch, if_unmodified_since: Optional[datetime.datetime] = None):\n    return _sandbox_patch_todo_impl(\n        db=session or db,\n        todo_id=todo_id,\n        todo_in=todo_in,\n        if_unmodified_since=if_unmodified_since,\n    )\n\n\ndef delete_todo(*, db=None, session=None, todo_id: int):\n    return _sandbox_delete_todo_impl(db=session or db, todo_id=todo_id)\n"

/-- The backwards-compatible-aliases comment header (schemas.py and auth.py branches). -/
def aliasesHeaderText : String :=
  "\n\n# Backwards-compatible aliases used by generated route modules.\n"

/-- The sandbox-compatibility-export comment header of the `routes.py` branch (sandbox.py:1098). -/
def routesExportText : String :=
  "\n\n# Sandbox compatibility export for generated route modules.\n"

/-- `_normalize_sandbox_source` (sandbox.py:955-1371), stage by stage in
source order.  The `service.py` branch's self-replacement of the
`PreconditionFailedError` class header (a literal identity `replace`) is
omitted as a no-op. -/
def normalizeSandboxSource (path content : String) : String :=
  let npath := (replaceAll "\\".toList "/".toList path.data).map Char.toLower
  let n := content.data
  let n := replaceAll "from .database import get_db".toList
    "from .database import get_db, engine".toList n
  let n := replaceAll "bind=get_db().bind".toList "bind=engine".toList n
  let n := rootValidatorSub n
  let n := rewriteDatetimeCollisions n
  let n := if ".py".toList.isSuffixOf npath then pyFieldStage n else n
  let n :=
    if "database.py".toList.isSuffixOf npath &&
        containsSub "def get_engine".toList n then
      if !anyAssign "engine".toList n then
        stripTrailing isPyWs n ++ dbEngineText.data ++
          "engine = get_engine()\n".toList
      else n
    else n
  let n :=
    if "schemas.py".toList.isSuffixOf npath then
      let hasCreate := containsSub "class CalculationCreate(".toList n
      let hasRequest := containsSub "class CalculationRequest(".toList n ||
        anyAssign "CalculationRequest".toList n
      let n :=
        if hasCreate && !hasRequest then
          stripTrailing isPyWs n ++ schemasAliasText.data ++
            "CalculationRequest = CalculationCreate\n".toList
        else n
      let hasToken := containsSub "class Token(".toList n ||
        anyAssign "Token".toList n
      let hasTokenResponse := containsSub "class TokenResponse(".toList n ||
        anyAssign "TokenResponse".toList n
      let hasLoginRequest := containsSub "class LoginRequest(".toList n ||
        anyAssign "LoginRequest".toList n
      let hasTokenRequest := containsSub "class TokenRequest(".toList n ||
        anyAssign "TokenRequest".toList n
      let aliases :=
        (if hasToken && !hasTokenResponse then
          ["TokenResponse = Token".toList] else []) ++
        (if hasLoginRequest && !hasTokenRequest then
          ["TokenRequest = LoginRequest".toList] else [])
      if !aliases.isEmpty then
        stripTrailing isPyWs n ++ aliasesHeaderText.data ++
          joinLinesChar aliases ++ ['\n']
      else n
    else n
  let n :=
    if "routes.py".toList.isSuffixOf npath then
      let hasRL := hasRouterListLine n
      let hasAR := anyAssign "api_router".toList n
      let hasGR := hasGetRouterDef n
      let n :=
        if hasRL && !hasAR then
          stripTrailing isPyWs n ++ routesExportText.data ++
            "api_router = APIRouter()\nfor _router in router_list:\n    api_router.include_router(_router)\n".toList
        else n
      let n :=
        if hasRL && !hasGR then
          stripTrailing isPyWs n ++
            "\n\ndef get_router():\n    return api_router\n".toList
        else n
      n
    else n
  let n :=
    if "auth.py".toList.isSuffixOf npath then
      let n :=
        if containsSub "def create_access_token(*, subject:".toList n &&
            !containsSub "def _sandbox_create_access_token_impl(".toList n then
          replaceFirst "def create_access_token(".toList
            "def _sandbox_create_access_token_impl(".toList n
        else n
      let hasHash := containsSub "def hash_password(".toList n ||
        anyAssign "hash_password".toList n
      let hasGetPwd := containsSub "def get_password_hash(".toList n ||
        anyAssign "get_password_hash".toList n
      let hasGetCur := containsSub "def get_current_user(".toList n ||
        anyAssign "get_current_user".toList n
      let hasCur := containsSub "def current_user(".toList n ||
        anyAssign "current_user".toList n
      let aliases :=
        (if hasHash && !hasGetPwd then
          ["get_password_hash = hash_password".toList] else []) ++
        (if hasGetCur && !hasCur then
          ["current_user = get_current_user".toList] else []) ++
        (if containsSub "def _sandbox_create_access_token_impl(".toList n then
          [authTokenWrapperText.data] else [])
      if !aliases.isEmpty then
        stripTrailing isPyWs n ++ aliasesHeaderText.data ++
          joinLinesChar aliases ++ ['\n']
      else n
    else n
  let n :=
    if "services.py".toList.isSuffixOf npath then
      let n :=
        if containsSub "def list_calculations(".toList n &&
            !containsSub "def _sandbox_list_calculations_impl(".toList n then
          replaceFirst "def list_calculations(".toList
            "def _sandbox_list_calculations_impl(".toList n
        else n
      if !containsSub "def evaluate_calculation(".toList n &&
          containsSub "class CalculatorService".toList n then
        stripTrailing isPyWs n ++ servicesCompatText.data
      else n
    else n
  let n :=
    if "service.py".toList.isSuffixOf npath then
      let markers := containsSub "def create_todo(".toList n &&
        containsSub "def list_todos(".toList n &&
        containsSub "TodoCreate".toList n &&
        containsSub "repository".toList n
      if markers && !containsSub "def _sandbox_create_todo_impl(".toList n then
        let n := replaceFirst "def create_todo(".toList
          "def _sandbox_create_todo_impl(".toList n
        let n := replaceFirst "def get_todo(".toList
          "def _sandbox_get_todo_impl(".toList n
        let n := replaceFirst "def list_todos(".toList
          "def _sandbox_list_todos_impl(".toList n
        let n := replaceFirst "def replace_todo(".toList
          "def _sandbox_replace_todo_impl(".toList n
        let n := replaceFirst "def patch_todo(".toList
          "def _sandbox_patch_todo_impl(".toList n
        let n := replaceFirst "def delete_todo(".toList
          "def _sandbox_delete_todo_impl(".toList n
        if !containsSub "PreconditionFailed = PreconditionFailedError".toList n then
          stripTrailing isPyWs n ++ serviceTodoText.data
        else n
      else n
    else n
  let n :=
    if "repository.py".toList.isSuffixOf npath then
      let markers := containsSub "def get_todo_by_id(".toList n &&
        containsSub "def list_todos(".toList n &&
        containsSub "def update_todo(".toList n &&
        containsSub "models.Todo".toList n
      if markers && !containsSub "def _sandbox_repo_list_todos_impl(".toList n then
        let n := replaceFirst "def list_todos(".toList
          "def _sandbox_repo_list_todos_impl(".toList n
        let n := replaceFirst "def update_todo(".toList
          "def _sandbox_repo_update_todo_impl(".toList n
        stripTrailing isPyWs n ++ repoCompatText.data
      else n
    else n
  ⟨n⟩

/-- Net parenthesis count of a source text.  For a Python source that
contains no string literals and no comments (as the inputs below), a
non-zero net count means `ast.parse` rejects the text, so a zero-to-one
jump refutes parse preservation. -/
def netParens (cs : List Char) : Int :=
  (countChar '(' cs : Int) - countChar ')' cs

/-- The failing input: a valid multi-line `Field(` declaration whose
`sa_column` already owns nullability. -/
def c5Input : String :=
  "x: int = Field(\n    sa_column=Column(Integer),\n    nullable=False)"

/-- C5. The sandbox source normalizer is not parse-preserving and has no
discard-on-parse-error guard: on `app/models.py` with a parseable
multi-line `Field(` block, the block rewriter drops the
`nullable=False)` line together with its closing parenthesis, leaving an
unbalanced, unparseable source. -/
theorem C5_sandbox_normalizer_breaks_parse :
    normalizeSandboxSource "app/models.py" c5Input =
      "x: int = Field(\n    sa_column=Column(Integer)," ∧
    netParens c5Input.data = 0 ∧
    netParens (normalizeSandboxSource "app/models.py" c5Input).data = 1 := by
  refine ⟨by decide, by decide, by decide⟩

end Interius
